import Mathlib

/-! ADS1110 driver (`src/ADS1110.cpp`): register codec, acquisition protocol and unit
conversion.

The driver keeps a mirror `_config` of the device's 8-bit configuration register and talks
to the device through an Arduino `TwoWire` object.  The embedding is state passing: every
member function takes the driver state (which contains the transport) and returns the new one.

* `uint8_t` values are natural numbers below 256; a conversion to `uint8_t` is `% 256`.
* `int` is taken to have at least 32 bits (the code compares `devData` with 32768 and
  subtracts 65536), so `int` values are unbounded integers here.
* `delay` only blocks the caller and is left out.
* `float` and `double` values are rationals: the rounding of floating-point arithmetic is
  left out.
-/

/-! ## Constants of `ADS1110.h` and macros of `Arduino.h` -/

/-- Modelled from the spec: `ADS1110.h` is not among the sources.  The gain field is bits 0-1
of the configuration register. -/
def GAIN_MASK : Nat := 0x03

/-- Modelled from the spec: `ADS1110.h` is not among the sources.  The sample-rate field is
bits 2-3 of the configuration register. -/
def SPS_MASK : Nat := 0x0C

/-- Modelled from the spec: `ADS1110.h` is not among the sources.  The start-conversion /
not-ready flag is bit 7 of the configuration register. -/
def START_CONVERSION : Nat := 0x80

/-- Modelled from the spec: `ADS1110.h` is not among the sources.  A transmission result of 0
is success, 1-7 are transport errors. -/
def COM_SUCCESS : Nat := 0

/-- Modelled from the spec: `ADS1110.h` is not among the sources.  A device answer is 3 bytes
(two data bytes and the echoed configuration register). -/
def NUM_BYTES : Nat := 3

/-- Modelled from the spec: `ADS1110.h` is not among the sources.  The poll loop makes up to 3
attempts. -/
def MAX_NUM_ATTEMPTS : Nat := 3

/-- Modelled from the spec: `ADS1110.h` is not among the sources.  Minimum code at 15 SPS. -/
def MIN_CODE_15 : Nat := 16

/-- Modelled from the spec: `ADS1110.h` is not among the sources.  Minimum code at 30 SPS. -/
def MIN_CODE_30 : Nat := 8

/-- Modelled from the spec: `ADS1110.h` is not among the sources.  Minimum code at 60 SPS. -/
def MIN_CODE_60 : Nat := 4

/-- Modelled from the spec: `ADS1110.h` is not among the sources.  Minimum code at 240 SPS. -/
def MIN_CODE_240 : Nat := 1

/-- Modelled from the spec: `ADS1110.h` is not among the sources, and the spec does not give
the numeric values of the four `sample_rate_t` enumerators nor of `DEFAULT_CONFIG`; they are
parameters of the embedding. -/
structure Header where
  SPS_15 : Nat
  SPS_30 : Nat
  SPS_60 : Nat
  SPS_240 : Nat
  DEFAULT_CONFIG : Nat

/-- Modelled from the spec: the sample-rate encoding is a bijection onto the four values of
bits 2-3, so the four enumerators are, in some order, the values 0x00, 0x04, 0x08 and 0x0C
(the `switch` statements of the source would not compile with equal `case` labels). -/
def Header.wellFormed (h : Header) : Prop :=
  List.Perm [h.SPS_15, h.SPS_30, h.SPS_60, h.SPS_240] [0x00, 0x04, 0x08, 0x0C]

instance (h : Header) : Decidable h.wellFormed := by
  unfold Header.wellFormed; infer_instance

/-- The encoding of the device data sheet (DR bits 11 = 15 SPS ... 00 = 240 SPS, default
register 0x0C), used where a concrete header is needed. -/
def datasheetHeader : Header :=
  ⟨0x0C, 0x08, 0x04, 0x00, 0x0C⟩

/-- The four arguments of `setRes` (`res_t`). -/
inductive res_t where
  | RES_12
  | RES_14
  | RES_15
  | RES_16
deriving DecidableEq, Repr

/-- The operand `~m` of `x & ~m`.  `m` is promoted to `int` before `~`; an `int` has at
least 16 bits and `x` is a `uint8_t`, so only the low bits of the complement take part. -/
def bitNot (m : Nat) : Nat := 0xFFFF ^^^ m

/-- The `Arduino.h` macro `bitRead(value, bit)`, `(((value) >> (bit)) & 0x01)`. -/
def bitRead (value bit : Nat) : Nat := (value >>> bit) &&& 0x01

/-- The value that the `Arduino.h` macro `bitSet(value, bit)`, `((value) |= (1UL << (bit)))`,
assigns to `value` (and yields). -/
def bitSet (value bit : Nat) : Nat := value ||| (1 <<< bit)

/-- The value that the `Arduino.h` macro `bitClear(value, bit)`,
`((value) &= ~(1UL << (bit)))`, assigns to `value` (and yields). -/
def bitClear (value bit : Nat) : Nat := value &&& (0xFFFFFFFF ^^^ (1 <<< bit))

/-- The conversion of a floating-point value to `long`, which drops the fraction. -/
def toLong (x : ℚ) : Int :=
  if 0 ≤ x then ⌊x⌋ else ⌈x⌉

/-- The `Arduino.h` macro `round(x)`, `((x)>=0?(long)((x)+0.5):(long)((x)-0.5))`. -/
def arduinoRound (x : ℚ) : Int :=
  if x ≥ 0 then toLong (x + 1 / 2) else toLong (x - 1 / 2)

/-! ## The transport (`TwoWire`) -/

/-- What the device sees on the bus, and what the driver takes out of the receive buffer. -/
inductive BusEvent where
  | transmission (address : Nat) (bytes : List Nat) (result : Nat)
  | request (address : Nat) (quantity : Nat) (received : List (Fin 256))
  | read (value : Int)
deriving DecidableEq, Repr

/-- The bus transport.  `endResults k` is the result code of the `k`-th `endTransmission`
and `answers k` the bytes that the `k`-th `requestFrom` leaves in the receive buffer; both
are arbitrary, which is how the behaviour of the bus and of the device is left open.  Result
codes and received bytes are `uint8_t`. -/
structure TwoWire where
  endResults : Nat → Fin 256
  answers : Nat → List (Fin 256)
  transmissions : Nat
  requests : Nat
  txAddress : Nat
  txBuffer : List Nat
  rxBuffer : List (Fin 256)
  log : List BusEvent

namespace TwoWire

/-- The result code that the next `endTransmission` returns (a `uint8_t`). -/
def nextResult (w : TwoWire) : Nat := (w.endResults w.transmissions).val

/-- The bytes that the next `requestFrom` receives. -/
def nextAnswer (w : TwoWire) : List (Fin 256) := w.answers w.requests

def beginTransmission (w : TwoWire) (address : Nat) : TwoWire :=
  { w with txAddress := address, txBuffer := [] }

def write (w : TwoWire) (data : Nat) : TwoWire :=
  { w with txBuffer := w.txBuffer ++ [data % 256] }

def endTransmission (w : TwoWire) : Nat × TwoWire :=
  (w.nextResult,
    { w with
      transmissions := w.transmissions + 1
      txBuffer := []
      log := w.log ++ [BusEvent.transmission w.txAddress w.txBuffer w.nextResult] })

def requestFrom (w : TwoWire) (address quantity : Nat) : Nat × TwoWire :=
  (w.nextAnswer.length,
    { w with
      requests := w.requests + 1
      rxBuffer := w.nextAnswer
      log := w.log ++ [BusEvent.request address quantity w.nextAnswer] })

def available (w : TwoWire) : Nat := w.rxBuffer.length

/-- The call `read()` returns the next received byte as an `int`, or -1 when the buffer is
empty. -/
def read (w : TwoWire) : Int × TwoWire :=
  match w.rxBuffer with
  | [] => (-1, { w with log := w.log ++ [BusEvent.read (-1)] })
  | b :: rest =>
    ((b.val : Int), { w with rxBuffer := rest, log := w.log ++ [BusEvent.read (b.val : Int)] })

end TwoWire

/-! ## The driver -/

/-- The data members of class `ADS1110`; `driver` is the transport the object points to. -/
structure ADS1110 where
  _devAddr : Nat
  _config : Nat
  _comBuffer : Nat
  _vref : Int
  driver : TwoWire

namespace ADS1110

def initCall (s : ADS1110) (data : Nat) : ADS1110 :=
  { s with driver := (s.driver.beginTransmission s._devAddr).write data }

def endCall (s : ADS1110) : ADS1110 :=
  { s with
    _comBuffer := s.driver.endTransmission.1
    driver := s.driver.endTransmission.2 }

def ping (s : ADS1110) : Nat × ADS1110 :=
  let w := (s.driver.beginTransmission s._devAddr).write s._config
  (w.endTransmission.1, { s with driver := w.endTransmission.2 })

def getGain (s : ADS1110) : Nat :=
  (1 <<< (s._config &&& GAIN_MASK)) % 256

/-- A `switch` without `default`: `none` is control reaching the end of the function. -/
def getSampleRate (h : Header) (s : ADS1110) : Option Nat :=
  if s._config &&& SPS_MASK = h.SPS_15 then some 15
  else if s._config &&& SPS_MASK = h.SPS_30 then some 30
  else if s._config &&& SPS_MASK = h.SPS_60 then some 60
  else if s._config &&& SPS_MASK = h.SPS_240 then some 240
  else none

def getConMode (s : ADS1110) : Nat :=
  bitRead s._config 4

def getRes (h : Header) (s : ADS1110) : Option Nat :=
  if s._config &&& SPS_MASK = h.SPS_15 then some 16
  else if s._config &&& SPS_MASK = h.SPS_30 then some 15
  else if s._config &&& SPS_MASK = h.SPS_60 then some 14
  else if s._config &&& SPS_MASK = h.SPS_240 then some 12
  else none

def getVref (s : ADS1110) : Int :=
  s._vref

def setConfig (s : ADS1110) (newConfig : Nat) : ADS1110 :=
  let s1 := (s.initCall (newConfig % 256)).endCall
  if s1._comBuffer = COM_SUCCESS then { s1 with _config := newConfig % 256 } else s1

def setGain (s : ADS1110) (newGain : Nat) : ADS1110 :=
  s.setConfig ((s._config &&& bitNot GAIN_MASK) ||| (newGain &&& GAIN_MASK))

def setSampleRate (s : ADS1110) (newRate : Nat) : ADS1110 :=
  s.setConfig ((s._config &&& bitNot SPS_MASK) ||| (newRate &&& SPS_MASK))

/-- The macros `bitSet` and `bitClear` are compound assignments to their first argument, so
evaluating the argument of `setConfig` already stores the new value in `_config`. -/
def setConMode (s : ADS1110) (newConMode : Nat) : ADS1110 :=
  let s1 : ADS1110 :=
    if newConMode ≠ 0 then { s with _config := bitSet s._config 4 % 256 }
    else { s with _config := bitClear s._config 4 % 256 }
  s1.setConfig s1._config

def setRes (h : Header) (s : ADS1110) (newRes : res_t) : ADS1110 :=
  match newRes with
  | res_t.RES_12 => s.setConfig ((s._config &&& bitNot SPS_MASK) ||| (h.SPS_240 &&& SPS_MASK))
  | res_t.RES_14 => s.setConfig ((s._config &&& bitNot SPS_MASK) ||| (h.SPS_60 &&& SPS_MASK))
  | res_t.RES_15 => s.setConfig ((s._config &&& bitNot SPS_MASK) ||| (h.SPS_30 &&& SPS_MASK))
  | res_t.RES_16 => s.setConfig ((s._config &&& bitNot SPS_MASK) ||| (h.SPS_15 &&& SPS_MASK))

def reset (h : Header) (s : ADS1110) : ADS1110 :=
  s.setConfig h.DEFAULT_CONFIG

def getComResult (s : ADS1110) : Nat :=
  s._comBuffer

/-- A `switch` without `default`: `none` is control reaching the end of the function. -/
def findMinCode (h : Header) (sampleRate : Nat) : Option Nat :=
  if sampleRate = h.SPS_15 then some MIN_CODE_15
  else if sampleRate = h.SPS_30 then some MIN_CODE_30
  else if sampleRate = h.SPS_60 then some MIN_CODE_60
  else if sampleRate = h.SPS_240 then some MIN_CODE_240
  else none

/-- The loop `while (driver->available()) driver->read();`, at most `fuel` iterations. -/
def emptyBufferLoop : Nat → TwoWire → TwoWire
  | 0, w => w
  | fuel + 1, w => if w.available ≠ 0 then emptyBufferLoop fuel w.read.2 else w

/-- Every iteration takes one byte out of the receive buffer, so as many iterations as
there are bytes in it are enough. -/
def emptyBuffer (s : ADS1110) : ADS1110 :=
  { s with driver := emptyBufferLoop s.driver.available s.driver }

/-- The statement `if (devData >= 32768) devData -= 65536;` of `getData`. -/
def rebase (devData : Int) : Int :=
  if devData ≥ 32768 then devData - 65536 else devData

/-- How the `while` loop of `getData` is left. -/
inductive LoopExit where
  | returned (value : Int) (s : ADS1110)
  | finished (devData : Int) (s : ADS1110)

/-- The loop `while (attemptCount < MAX_NUM_ATTEMPTS) {...}` of `getData`, at most `fuel`
evaluations of its condition; `none` is running out of fuel.  The two operands of `|` in
`driver->read() << 8 | driver->read()` are evaluated left to right. -/
def pollLoop : Nat → ADS1110 → Nat → Int → Option LoopExit
  | 0, _, _, _ => none
  | fuel + 1, s, attemptCount, devData =>
    if attemptCount < MAX_NUM_ATTEMPTS then
      let w1 := (s.driver.requestFrom s._devAddr NUM_BYTES).2
      if w1.available = NUM_BYTES then
        let hi := w1.read
        let lo := hi.2.read
        let devData1 : Int := Int.lor (hi.1 <<< (8 : Int)) lo.1
        let cfg := lo.2.read
        let devConfig : Nat := (cfg.1 % 256).toNat
        if bitRead devConfig 7 ≠ 0 then
          pollLoop fuel { s with driver := cfg.2 } ((attemptCount + 1) % 256) devData1
        else
          some (LoopExit.returned (rebase devData1) { s with driver := cfg.2 })
      else
        let s1 := ({ s with driver := w1 } : ADS1110).emptyBuffer
        let p := s1.ping
        pollLoop fuel { p.2 with _comBuffer := p.1 } MAX_NUM_ATTEMPTS 0
    else some (LoopExit.finished devData s)

/-- The body of `getData`.  `devData` is not initialised in the source and is assigned in
the first iteration of the loop before it is read; it starts at 0 here.  The loop gets one
evaluation of its condition more than `MAX_NUM_ATTEMPTS`; `none` is the loop not ending
within them. -/
def getData (s : ADS1110) : Option (Int × ADS1110) :=
  let s1 : ADS1110 :=
    if bitRead s._config 4 ≠ 0 then (s.initCall ((s._config ||| START_CONVERSION) % 256)).endCall
    else s
  let p := s1.ping
  if p.1 ≠ 0 then some (0, p.2)
  else
    match p.2.pollLoop (MAX_NUM_ATTEMPTS + 1) 0 0 with
    | none => none
    | some (LoopExit.returned value s2) => some (value, s2)
    | some (LoopExit.finished devData s2) =>
      if bitRead s2._config 4 = 0 then
        let q := s2.ping
        some (rebase devData, { q.2 with _comBuffer := q.1 })
      else some (0, s2)

/-- The value `(findMinCode(_config & SPS_MASK) << 11) * -1` of the locals `minCode` of
`getVolt` and `lowerLimit` of `getPercent`, for the minimum code that `findMinCode` returns. -/
def lowerLimit (code : Nat) : Int :=
  ((code <<< 11 : Nat) : Int) * -1

/-- The value `(findMinCode(_config & SPS_MASK) << 11) - 1` of the local `upperLimit` of
`getPercent`. -/
def upperLimit (code : Nat) : Int :=
  ((code <<< 11 : Nat) : Int) - 1

/-- The divisor `minCode * gain * (-1)` of `getVolt`, an `int`. -/
def voltDivisor (code gain : Nat) : Int :=
  lowerLimit code * (gain : Int) * (-1)

def mapf (val in_min in_max out_min out_max : ℚ) : ℚ :=
  (val - in_min) * (out_max - out_min) / (in_max - in_min) + out_min

/-- The argument of `round` in `return round(mapf(getData(), lowerLimit, upperLimit, 0, 100));`
is a call with an acquisition in it, and the macro `round(x)`,
`((x)>=0?(long)((x)+0.5):(long)((x)-0.5))`, evaluates its argument twice: once in the
condition and once in the branch taken.  So `getPercent` makes two acquisitions; the first
reading selects the branch, the second is the one converted.  The result is converted to
the return type `uint8_t`. -/
def getPercent (h : Header) (s : ADS1110) : Option (Nat × ADS1110) :=
  match findMinCode h (s._config &&& SPS_MASK), findMinCode h (s._config &&& SPS_MASK) with
  | some code1, some code2 =>
    match s.getData with
    | none => none
    | some (data1, s1) =>
      match s1.getData with
      | none => none
      | some (data2, s2) =>
        some (((if mapf (data1 : ℚ) (lowerLimit code1 : ℚ) (upperLimit code2 : ℚ) 0 100 ≥ 0 then
              toLong (mapf (data2 : ℚ) (lowerLimit code1 : ℚ) (upperLimit code2 : ℚ) 0 100
                + 1 / 2)
            else
              toLong (mapf (data2 : ℚ) (lowerLimit code1 : ℚ) (upperLimit code2 : ℚ) 0 100
                - 1 / 2)) % 256).toNat, s2)
  | _, _ => none

end ADS1110


/-! ## Observations used to state the properties of `getData` -/

/-- A `requestFrom` in the log. -/
def BusEvent.isRequest : BusEvent → Bool
  | BusEvent.request _ _ _ => true
  | _ => false

/-- The number of read requests (`requestFrom`) in a log. -/
def readRequests (log : List BusEvent) : Nat :=
  log.countP BusEvent.isRequest

/-- A byte taken out of the receive buffer (`read`) in the log. -/
def BusEvent.isRead : BusEvent → Bool
  | BusEvent.read _ => true
  | _ => false

/-- The number of `read` calls in a log. -/
def byteReads (log : List BusEvent) : Nat :=
  log.countP BusEvent.isRead

/-- A device answer of three bytes whose third byte, the echoed configuration register, has
the not-ready flag (bit 7) set. -/
def notReady : List (Fin 256) → Bool
  | [_, _, cfg] => cfg.val.testBit 7
  | _ => false

/-- The unsigned 16-bit value of the first two bytes of an answer, first byte most
significant. -/
def dataWord : List (Fin 256) → Int
  | hi :: lo :: _ => (hi.val : Int) * 256 + (lo.val : Int)
  | _ => 0

namespace ADS1110

/-- The number of transmissions `getData` makes before its liveness ping: the trigger of a
conversion in single-shot mode, none in continuous mode. -/
def triggerCount (s : ADS1110) : Nat :=
  if bitRead s._config 4 ≠ 0 then 1 else 0

/-- The result code of the liveness ping of a `getData` started in state `s`. -/
def livenessResult (s : ADS1110) : Nat :=
  (s.driver.endResults (s.driver.transmissions + s.triggerCount)).val

/-- The answer to the `j`-th read request (counted from 0) made from state `s` on. -/
def pollAnswer (s : ADS1110) (j : Nat) : List (Fin 256) :=
  s.driver.answers (s.driver.requests + j)

/-- The state after one poll of `getData` that received three bytes: the request and the
three reads. -/
def polled (s : ADS1110) : ADS1110 :=
  { s with driver := (s.driver.requestFrom s._devAddr NUM_BYTES).2.read.2.read.2.read.2 }

/-- The state after one poll of `getData` that did not receive three bytes: the request, the
emptying of the receive buffer and the ping whose result goes to `_comBuffer`. -/
def shortRead (s : ADS1110) : ADS1110 :=
  { (({ s with driver := (s.driver.requestFrom s._devAddr NUM_BYTES).2 } :
        ADS1110).emptyBuffer).ping.2 with
    _comBuffer :=
      (({ s with driver := (s.driver.requestFrom s._devAddr NUM_BYTES).2 } :
        ADS1110).emptyBuffer).ping.1 }

/-- The state of `getData` when it enters its `while` loop: after the trigger of a single-shot
conversion, if any, and the liveness ping. -/
def live (s : ADS1110) : ADS1110 :=
  (if bitRead s._config 4 ≠ 0 then
      (s.initCall ((s._config ||| START_CONVERSION) % 256)).endCall
    else s).ping.2

/-- The state in which a `while` loop of `getData` was left. -/
def LoopExit.state : LoopExit → ADS1110
  | LoopExit.returned _ s => s
  | LoopExit.finished _ s => s

end ADS1110

/-! ## Concrete transports and driver states -/

/-- A transport with nothing sent or received yet whose first `endTransmission` results and
`requestFrom` answers are the listed ones (0 and no byte after them). -/
def scriptedWire (results : List (Fin 256)) (answers : List (List (Fin 256))) : TwoWire :=
  { endResults := fun k => results.getD k 0
    answers := fun k => answers.getD k []
    transmissions := 0
    requests := 0
    txAddress := 0
    txBuffer := []
    rxBuffer := []
    log := [] }

/-- A driver at bus address 0x48 with the given mirror on a scripted transport. -/
def scriptedDriver (config : Nat) (results : List (Fin 256))
    (answers : List (List (Fin 256))) : ADS1110 :=
  { _devAddr := 0x48
    _config := config
    _comBuffer := COM_SUCCESS
    _vref := 0
    driver := scriptedWire results answers }

/-! ## Bit-level facts -/

theorem and_sps_mask_cases (c : Nat) :
    c &&& SPS_MASK = 0 ∨ c &&& SPS_MASK = 4 ∨ c &&& SPS_MASK = 8 ∨ c &&& SPS_MASK = 12 := by
  have hle : c &&& SPS_MASK ≤ 12 := Nat.and_le_right
  have hlow : (c &&& SPS_MASK) &&& (2 ^ 2 - 1) = 0 := by
    rw [Nat.and_assoc]
    have : SPS_MASK &&& (2 ^ 2 - 1) = 0 := by decide
    rw [this, Nat.and_zero]
  rw [Nat.and_pow_two_sub_one_eq_mod] at hlow
  omega

theorem and_gain_mask_lt (c : Nat) : c &&& GAIN_MASK < 4 := by
  have hle : c &&& GAIN_MASK ≤ 3 := Nat.and_le_right
  omega

theorem testBit_eq_false_of_byte (c i : Nat) (hc : c < 256) (hi : 8 ≤ i) :
    c.testBit i = false := by
  apply Nat.testBit_lt_two_pow
  calc c < 2 ^ 8 := by omega
    _ ≤ 2 ^ i := Nat.pow_le_pow_right (by norm_num) hi

theorem testBit_bitNot (m i : Nat) (hi : i < 8) : (bitNot m).testBit i = !m.testBit i := by
  unfold bitNot
  rw [Nat.testBit_xor]
  have : Nat.testBit 0xFFFF i = true := by
    interval_cases i <;> decide
  simp [this]

/-- Outside the mask, `(c & ~m) | (v & m)` converted to `uint8_t` has the bits of `c`. -/
theorem field_frame (c v m i : Nat) (hc : c < 256) (hi : m.testBit i = false) :
    (((c &&& bitNot m) ||| (v &&& m)) % 256).testBit i = c.testBit i := by
  have h8 : (256 : Nat) = 2 ^ 8 := by norm_num
  rw [h8, Nat.testBit_mod_two_pow, Nat.testBit_or, Nat.testBit_and, Nat.testBit_and, hi]
  by_cases h : i < 8
  · simp [h, testBit_bitNot m i h, hi]
  · simp [h, testBit_eq_false_of_byte c i hc (by omega)]

/-- Inside the mask, `(c & ~m) | (v & m)` converted to `uint8_t` has the bits of `v`. -/
theorem field_value (c v m : Nat) (hm : m < 256) :
    (((c &&& bitNot m) ||| (v &&& m)) % 256) &&& m = v &&& m := by
  have h8 : (256 : Nat) = 2 ^ 8 := by norm_num
  apply Nat.eq_of_testBit_eq
  intro i
  simp only [h8, Nat.testBit_and, Nat.testBit_mod_two_pow, Nat.testBit_or]
  by_cases h : i < 8
  · rw [testBit_bitNot m i h]
    cases m.testBit i <;> simp [h]
  · simp [h, testBit_eq_false_of_byte m i hm (by omega)]

theorem bitSet_four_frame (c i : Nat) (hc : c < 256) (hi : i ≠ 4) :
    (bitSet c 4 % 256).testBit i = c.testBit i := by
  have h8 : (256 : Nat) = 2 ^ 8 := by norm_num
  unfold bitSet
  rw [h8, Nat.testBit_mod_two_pow, Nat.testBit_or]
  have h16 : (1 <<< 4 : Nat) = 2 ^ 4 := by decide
  rw [h16, Nat.testBit_two_pow]
  by_cases h : i < 8
  · have : ¬ (4 = i) := fun e => hi e.symm
    simp [h, this]
  · have : ¬ (4 = i) := fun e => hi e.symm
    simp [h, this, testBit_eq_false_of_byte c i hc (by omega)]

theorem bitClear_four_frame (c i : Nat) (hc : c < 256) (hi : i ≠ 4) :
    (bitClear c 4 % 256).testBit i = c.testBit i := by
  have h8 : (256 : Nat) = 2 ^ 8 := by norm_num
  unfold bitClear
  rw [h8, Nat.testBit_mod_two_pow, Nat.testBit_and]
  by_cases h : i < 8
  · have : Nat.testBit (0xFFFFFFFF ^^^ (1 <<< 4)) i = true := by
      interval_cases i <;> first | decide | exact absurd rfl hi
    rw [this]
    simp [h]
  · simp [h, testBit_eq_false_of_byte c i hc (by omega)]

/-! ## The write path -/

namespace ADS1110

theorem setConfig_comBuffer (s : ADS1110) (newConfig : Nat) :
    (s.setConfig newConfig)._comBuffer = s.driver.nextResult := by
  unfold setConfig
  by_cases h : s.driver.nextResult = COM_SUCCESS <;>
    simp [initCall, endCall, TwoWire.endTransmission, TwoWire.write, TwoWire.beginTransmission,
      TwoWire.nextResult, h] <;> split <;> rfl

theorem setConfig_config (s : ADS1110) (newConfig : Nat) :
    (s.setConfig newConfig)._config =
      if s.driver.nextResult = 0 then newConfig % 256 else s._config := by
  unfold setConfig
  simp only [initCall, endCall, TwoWire.endTransmission, TwoWire.write,
    TwoWire.beginTransmission, TwoWire.nextResult, COM_SUCCESS]
  split <;> rfl

theorem setConfig_log (s : ADS1110) (newConfig : Nat) :
    (s.setConfig newConfig).driver.log =
      s.driver.log ++
        [BusEvent.transmission s._devAddr [newConfig % 256] s.driver.nextResult] := by
  unfold setConfig
  simp only [initCall, endCall, TwoWire.endTransmission, TwoWire.write,
    TwoWire.beginTransmission, TwoWire.nextResult, COM_SUCCESS]
  split <;> simp

end ADS1110

/-! ## The sample-rate table -/

theorem Header.codes_of_wellFormed (h : Header) (hw : h.wellFormed) :
    (h.SPS_15 &&& SPS_MASK = h.SPS_15 ∧ h.SPS_30 &&& SPS_MASK = h.SPS_30 ∧
      h.SPS_60 &&& SPS_MASK = h.SPS_60 ∧ h.SPS_240 &&& SPS_MASK = h.SPS_240) ∧
    (h.SPS_15 ≠ h.SPS_30 ∧ h.SPS_15 ≠ h.SPS_60 ∧ h.SPS_15 ≠ h.SPS_240 ∧
      h.SPS_30 ≠ h.SPS_60 ∧ h.SPS_30 ≠ h.SPS_240 ∧ h.SPS_60 ≠ h.SPS_240) := by
  have inMask : ∀ c ∈ [h.SPS_15, h.SPS_30, h.SPS_60, h.SPS_240], c &&& SPS_MASK = c := by
    intro c hc
    have hc' := (List.Perm.mem_iff hw).mp hc
    simp only [List.mem_cons, List.mem_singleton, List.not_mem_nil, or_false] at hc'
    rcases hc' with e | e | e | e <;> subst e <;> decide
  have hnd : [h.SPS_15, h.SPS_30, h.SPS_60, h.SPS_240].Nodup :=
    (List.Perm.nodup_iff hw).mpr (by decide)
  simp only [List.nodup_cons, List.mem_cons, List.mem_singleton, not_or, List.not_mem_nil,
    not_false_eq_true, List.nodup_nil, and_true] at hnd
  obtain ⟨⟨d1, d2, d3⟩, ⟨d4, d5⟩, d6⟩ := hnd
  exact ⟨⟨inMask _ (by simp), inMask _ (by simp), inMask _ (by simp), inMask _ (by simp)⟩,
    d1, d2, d3, d4, d5, d6⟩

/-- The field of any register value is one of the four enumerators of a well-formed header. -/
theorem Header.field_cases (h : Header) (hw : h.wellFormed) (c : Nat) :
    c &&& SPS_MASK = h.SPS_15 ∨ c &&& SPS_MASK = h.SPS_30 ∨ c &&& SPS_MASK = h.SPS_60 ∨
      c &&& SPS_MASK = h.SPS_240 := by
  have hc : c &&& SPS_MASK ∈ [0x00, 0x04, 0x08, 0x0C] := by
    simpa using and_sps_mask_cases c
  simpa using (List.Perm.mem_iff hw).mpr hc

namespace ADS1110

/-- C1: when the bus write issued by `setGain`, `setSampleRate`, `setRes` or `reset` ends with
a non-zero result code, the mirrored configuration register keeps its value and the
communication result holds that code, for every mirror value and every argument. -/
theorem failed_write_keeps_mirror (h : Header) (s : ADS1110)
    (hfail : s.driver.nextResult ≠ 0) :
    (∀ newGain, (s.setGain newGain)._config = s._config ∧
      (s.setGain newGain).getComResult = s.driver.nextResult) ∧
    (∀ newRate, (s.setSampleRate newRate)._config = s._config ∧
      (s.setSampleRate newRate).getComResult = s.driver.nextResult) ∧
    (∀ newRes, (s.setRes h newRes)._config = s._config ∧
      (s.setRes h newRes).getComResult = s.driver.nextResult) ∧
    ((s.reset h)._config = s._config ∧ (s.reset h).getComResult = s.driver.nextResult) := by
  refine ⟨?_, ?_, ?_, ?_⟩
  · intro newGain
    simp [setGain, getComResult, setConfig_config, setConfig_comBuffer, hfail]
  · intro newRate
    simp [setSampleRate, getComResult, setConfig_config, setConfig_comBuffer, hfail]
  · intro newRes
    cases newRes <;>
      simp [setRes, getComResult, setConfig_config, setConfig_comBuffer, hfail]
  · simp [reset, getComResult, setConfig_config, setConfig_comBuffer, hfail]

theorem failed_write_keeps_mirror_witness :
    (scriptedDriver 0x0C [2] []).driver.nextResult ≠ 0 ∧
      ((scriptedDriver 0x0C [2] []).setGain 3)._config = 0x0C ∧
      ((scriptedDriver 0x0C [2] []).setGain 3).getComResult = 2 :=
  ⟨by decide,
    ((failed_write_keeps_mirror datasheetHeader (scriptedDriver 0x0C [2] []) (by decide)).1 3).1,
    ((failed_write_keeps_mirror datasheetHeader (scriptedDriver 0x0C [2] []) (by decide)).1 3).2⟩

/-- C2 (the code at the failing input): with the mirror at 0x0C (continuous mode) and a bus
write that ends with result code 2, `setConMode(SINGLE)` leaves the mirror at 0x1C, bit 4
changed, while the communication result reports the failure. -/
theorem setConMode_failed_write_changes_mirror :
    (scriptedDriver 0x0C [2] []).driver.nextResult = 2 ∧
      ((scriptedDriver 0x0C [2] []).setConMode 0x10)._config = 0x1C ∧
      ((scriptedDriver 0x0C [2] []).setConMode 0x10).getComResult = 2 ∧
      ((scriptedDriver 0x0C [2] []).setConMode 0x10).getConMode = 1 ∧
      (scriptedDriver 0x0C [2] []).getConMode = 0 := by
  decide

/-- C3: a successful `setGain` changes at most bits 0-1 of the mirror, a successful
`setSampleRate` or `setRes` at most bits 2-3 and a successful `setConMode` at most bit 4;
every other bit keeps its value, and the byte written to the bus is the new mirror. -/
theorem setters_change_only_their_field (h : Header) (s : ADS1110)
    (hc : s._config < 256) (hok : s.driver.nextResult = 0) :
    (∀ newGain,
      (∀ i, i ≠ 0 → i ≠ 1 → (s.setGain newGain)._config.testBit i = s._config.testBit i) ∧
      (s.setGain newGain).driver.log =
        s.driver.log ++ [BusEvent.transmission s._devAddr [(s.setGain newGain)._config] 0]) ∧
    (∀ newRate,
      (∀ i, i ≠ 2 → i ≠ 3 →
        (s.setSampleRate newRate)._config.testBit i = s._config.testBit i) ∧
      (s.setSampleRate newRate).driver.log =
        s.driver.log ++
          [BusEvent.transmission s._devAddr [(s.setSampleRate newRate)._config] 0]) ∧
    (∀ newRes,
      (∀ i, i ≠ 2 → i ≠ 3 → (s.setRes h newRes)._config.testBit i = s._config.testBit i) ∧
      (s.setRes h newRes).driver.log =
        s.driver.log ++ [BusEvent.transmission s._devAddr [(s.setRes h newRes)._config] 0]) ∧
    (∀ newConMode,
      (∀ i, i ≠ 4 → (s.setConMode newConMode)._config.testBit i = s._config.testBit i) ∧
      (s.setConMode newConMode).driver.log =
        s.driver.log ++
          [BusEvent.transmission s._devAddr [(s.setConMode newConMode)._config] 0]) := by
  have gainBit : ∀ i, i ≠ 0 → i ≠ 1 → GAIN_MASK.testBit i = false := by
    intro i h0 h1
    apply Nat.testBit_lt_two_pow
    calc GAIN_MASK < 2 ^ 2 := by decide
      _ ≤ 2 ^ i := Nat.pow_le_pow_right (by norm_num) (by omega)
  have spsBit : ∀ i, i ≠ 2 → i ≠ 3 → SPS_MASK.testBit i = false := by
    intro i h2 h3
    by_cases hi : i < 2
    · interval_cases i <;> decide
    · apply Nat.testBit_lt_two_pow
      calc SPS_MASK < 2 ^ 4 := by decide
        _ ≤ 2 ^ i := Nat.pow_le_pow_right (by norm_num) (by omega)
  have spsFrame : ∀ v i, i ≠ 2 → i ≠ 3 →
      (s.setConfig ((s._config &&& bitNot SPS_MASK) ||| (v &&& SPS_MASK)))._config.testBit i =
        s._config.testBit i := by
    intro v i h2 h3
    rw [setConfig_config, if_pos hok]
    exact field_frame _ _ _ _ hc (spsBit i h2 h3)
  refine ⟨?_, ?_, ?_, ?_⟩
  · intro newGain
    refine ⟨?_, ?_⟩
    · intro i h0 h1
      rw [setGain, setConfig_config, if_pos hok]
      exact field_frame _ _ _ _ hc (gainBit i h0 h1)
    · rw [setGain, setConfig_log, setConfig_config, if_pos hok, hok]
  · intro newRate
    refine ⟨spsFrame newRate, ?_⟩
    rw [setSampleRate, setConfig_log, setConfig_config, if_pos hok, hok]
  · intro newRes
    refine ⟨?_, ?_⟩
    · cases newRes <;> exact spsFrame _
    · cases newRes <;>
        simp only [setRes] <;> rw [setConfig_log, setConfig_config, if_pos hok, hok]
  · intro newConMode
    by_cases hm : newConMode ≠ 0
    · refine ⟨?_, ?_⟩
      · intro i h4
        simp only [setConMode, if_pos hm]
        rw [setConfig_config]
        simp only [hok, if_true, Nat.mod_mod]
        exact bitSet_four_frame _ _ hc h4
      · simp only [setConMode, if_pos hm]
        rw [setConfig_log, setConfig_config]
        simp only [hok, if_true, Nat.mod_mod]
    · refine ⟨?_, ?_⟩
      · intro i h4
        simp only [setConMode, if_neg hm]
        rw [setConfig_config]
        simp only [hok, if_true, Nat.mod_mod]
        exact bitClear_four_frame _ _ hc h4
      · simp only [setConMode, if_neg hm]
        rw [setConfig_log, setConfig_config]
        simp only [hok, if_true, Nat.mod_mod]

theorem setters_change_only_their_field_witness :
    (scriptedDriver 0x9E [0] [])._config < 256 ∧
      (scriptedDriver 0x9E [0] []).driver.nextResult = 0 ∧
      ((scriptedDriver 0x9E [0] []).setGain 1)._config.testBit 7 =
        (scriptedDriver 0x9E [0] [])._config.testBit 7 :=
  ⟨by decide, by decide,
    ((setters_change_only_their_field datasheetHeader (scriptedDriver 0x9E [0] [])
      (by decide) (by decide)).1 1).1 7 (by decide) (by decide)⟩

/-! ## The getters -/

theorem table_row (h : Header) (hw : h.wellFormed) (s : ADS1110) :
    (s._config &&& SPS_MASK = h.SPS_15 ∧ s.getSampleRate h = some 15 ∧ s.getRes h = some 16 ∧
      findMinCode h (s._config &&& SPS_MASK) = some 16) ∨
    (s._config &&& SPS_MASK = h.SPS_30 ∧ s.getSampleRate h = some 30 ∧ s.getRes h = some 15 ∧
      findMinCode h (s._config &&& SPS_MASK) = some 8) ∨
    (s._config &&& SPS_MASK = h.SPS_60 ∧ s.getSampleRate h = some 60 ∧ s.getRes h = some 14 ∧
      findMinCode h (s._config &&& SPS_MASK) = some 4) ∨
    (s._config &&& SPS_MASK = h.SPS_240 ∧ s.getSampleRate h = some 240 ∧
      s.getRes h = some 12 ∧ findMinCode h (s._config &&& SPS_MASK) = some 1) := by
  obtain ⟨-, d1, d2, d3, d4, d5, d6⟩ := h.codes_of_wellFormed hw
  rcases h.field_cases hw s._config with e | e | e | e
  · left
    simp [getSampleRate, getRes, findMinCode, e, MIN_CODE_15]
  · right; left
    simp [getSampleRate, getRes, findMinCode, e, d1.symm, MIN_CODE_30]
  · right; right; left
    simp [getSampleRate, getRes, findMinCode, e, d2.symm, d4.symm, MIN_CODE_60]
  · right; right; right
    simp [getSampleRate, getRes, findMinCode, e, d3.symm, d5.symm, d6.symm, MIN_CODE_240]

/-- C4: for every value of the mirrored register `getSampleRate`, `getRes` and `findMinCode`
(of the sample-rate field) return a value, which depends on the mirror alone, and the three
values form one row of the table (15, 16, 16), (30, 15, 8), (60, 14, 4), (240, 12, 1); two
registers get the same row exactly when their sample-rate fields are equal, and each of the
four rows is the row of some 8-bit register. -/
theorem rate_table_total_and_bijective (h : Header) (hw : h.wellFormed) (s : ADS1110) :
    (s.getSampleRate h, s.getRes h, findMinCode h (s._config &&& SPS_MASK)) ∈
        [(some 15, some 16, some 16), (some 30, some 15, some 8), (some 60, some 14, some 4),
          (some 240, some 12, some 1)] ∧
    (∀ t : ADS1110, t._config = s._config →
      t.getSampleRate h = s.getSampleRate h ∧ t.getRes h = s.getRes h) ∧
    (∀ t : ADS1110,
      (t.getSampleRate h = s.getSampleRate h ↔
        t._config &&& SPS_MASK = s._config &&& SPS_MASK) ∧
      (t.getRes h = s.getRes h ↔ t._config &&& SPS_MASK = s._config &&& SPS_MASK) ∧
      (findMinCode h (t._config &&& SPS_MASK) = findMinCode h (s._config &&& SPS_MASK) ↔
        t._config &&& SPS_MASK = s._config &&& SPS_MASK)) ∧
    (∀ row ∈ [(some 15, some 16, some 16), (some 30, some 15, some 8),
        (some 60, some 14, some 4), (some 240, some 12, some 1)],
      ∃ t : ADS1110, t._config < 256 ∧
        (t.getSampleRate h, t.getRes h, findMinCode h (t._config &&& SPS_MASK)) = row) := by
  obtain ⟨⟨m1, m2, m3, m4⟩, d1, d2, d3, d4, d5, d6⟩ := h.codes_of_wellFormed hw
  refine ⟨?_, ?_, ?_, ?_⟩
  · rcases table_row h hw s with ⟨-, a, b, c⟩ | ⟨-, a, b, c⟩ | ⟨-, a, b, c⟩ | ⟨-, a, b, c⟩ <;>
      simp [a, b, c]
  · intro t ht
    simp [getSampleRate, getRes, ht]
  · intro t
    rcases table_row h hw s with ⟨e, a, b, c⟩ | ⟨e, a, b, c⟩ | ⟨e, a, b, c⟩ | ⟨e, a, b, c⟩ <;>
      rcases table_row h hw t with ⟨e', a', b', c'⟩ | ⟨e', a', b', c'⟩ | ⟨e', a', b', c'⟩ |
        ⟨e', a', b', c'⟩ <;>
      rw [a, b, c, a', b', c', e, e'] <;>
      simp [d1, d2, d3, d4, d5, d6, d1.symm, d2.symm, d3.symm, d4.symm, d5.symm, d6.symm]
  · have small : ∀ c, c &&& SPS_MASK = c → c < 256 := by
      intro c hc
      have : c &&& SPS_MASK ≤ 12 := Nat.and_le_right
      omega
    have at_code : ∀ c, c &&& SPS_MASK = c →
        ∃ t : ADS1110, t._config < 256 ∧ t._config &&& SPS_MASK = c := by
      intro c hc
      exact ⟨{ s with _config := c }, small c hc, hc⟩
    intro row hrow
    simp only [List.mem_cons, List.mem_singleton, List.not_mem_nil, or_false] at hrow
    rcases hrow with r | r | r | r
    · obtain ⟨t, ht, e⟩ := at_code h.SPS_15 m1
      refine ⟨t, ht, ?_⟩
      rcases table_row h hw t with ⟨e', a, b, c⟩ | ⟨e', a, b, c⟩ | ⟨e', a, b, c⟩ |
        ⟨e', a, b, c⟩ <;> simp_all
    · obtain ⟨t, ht, e⟩ := at_code h.SPS_30 m2
      refine ⟨t, ht, ?_⟩
      rcases table_row h hw t with ⟨e', a, b, c⟩ | ⟨e', a, b, c⟩ | ⟨e', a, b, c⟩ |
        ⟨e', a, b, c⟩ <;> simp_all
    · obtain ⟨t, ht, e⟩ := at_code h.SPS_60 m3
      refine ⟨t, ht, ?_⟩
      rcases table_row h hw t with ⟨e', a, b, c⟩ | ⟨e', a, b, c⟩ | ⟨e', a, b, c⟩ |
        ⟨e', a, b, c⟩ <;> simp_all
    · obtain ⟨t, ht, e⟩ := at_code h.SPS_240 m4
      refine ⟨t, ht, ?_⟩
      rcases table_row h hw t with ⟨e', a, b, c⟩ | ⟨e', a, b, c⟩ | ⟨e', a, b, c⟩ |
        ⟨e', a, b, c⟩ <;> simp_all

theorem rate_table_total_and_bijective_witness :
    datasheetHeader.wellFormed ∧
      ((scriptedDriver 0x0C [] []).getSampleRate datasheetHeader,
        (scriptedDriver 0x0C [] []).getRes datasheetHeader,
        findMinCode datasheetHeader ((scriptedDriver 0x0C [] [])._config &&& SPS_MASK)) ∈
        [(some 15, some 16, some 16), (some 30, some 15, some 8), (some 60, some 14, some 4),
          (some 240, some 12, some 1)] :=
  ⟨by decide,
    (rate_table_total_and_bijective datasheetHeader (by decide) (scriptedDriver 0x0C [] [])).1⟩

theorem setConfig_field (s : ADS1110) (v : Nat) (hok : s.driver.nextResult = 0) :
    (s.setConfig ((s._config &&& bitNot SPS_MASK) ||| (v &&& SPS_MASK)))._config &&& SPS_MASK =
      v &&& SPS_MASK := by
  rw [setConfig_config, if_pos hok]
  exact field_value _ _ _ (by decide)

/-- C5: after a successful `setRes(r)` `getRes` returns `r` and `getSampleRate` the rate that
produces it (16 -> 15, 15 -> 30, 14 -> 60, 12 -> 240); after a successful `setSampleRate(s)`
`getSampleRate` returns `s` and `getRes` the matching resolution; and `setRes(r)` leaves the
same driver and transport state (so writes the same byte) as `setSampleRate` of the mapped
rate, whatever the result of the write. -/
theorem resolution_rate_round_trip (h : Header) (hw : h.wellFormed) (s : ADS1110)
    (hok : s.driver.nextResult = 0) :
    ((s.setRes h res_t.RES_16).getRes h = some 16 ∧
      (s.setRes h res_t.RES_16).getSampleRate h = some 15 ∧
      (s.setRes h res_t.RES_15).getRes h = some 15 ∧
      (s.setRes h res_t.RES_15).getSampleRate h = some 30 ∧
      (s.setRes h res_t.RES_14).getRes h = some 14 ∧
      (s.setRes h res_t.RES_14).getSampleRate h = some 60 ∧
      (s.setRes h res_t.RES_12).getRes h = some 12 ∧
      (s.setRes h res_t.RES_12).getSampleRate h = some 240) ∧
    ((s.setSampleRate h.SPS_15).getSampleRate h = some 15 ∧
      (s.setSampleRate h.SPS_15).getRes h = some 16 ∧
      (s.setSampleRate h.SPS_30).getSampleRate h = some 30 ∧
      (s.setSampleRate h.SPS_30).getRes h = some 15 ∧
      (s.setSampleRate h.SPS_60).getSampleRate h = some 60 ∧
      (s.setSampleRate h.SPS_60).getRes h = some 14 ∧
      (s.setSampleRate h.SPS_240).getSampleRate h = some 240 ∧
      (s.setSampleRate h.SPS_240).getRes h = some 12) ∧
    (∀ t : ADS1110,
      t.setRes h res_t.RES_16 = t.setSampleRate h.SPS_15 ∧
      t.setRes h res_t.RES_15 = t.setSampleRate h.SPS_30 ∧
      t.setRes h res_t.RES_14 = t.setSampleRate h.SPS_60 ∧
      t.setRes h res_t.RES_12 = t.setSampleRate h.SPS_240) := by
  obtain ⟨⟨m1, m2, m3, m4⟩, d1, d2, d3, d4, d5, d6⟩ := h.codes_of_wellFormed hw
  have f1 := (setConfig_field s h.SPS_15 hok).trans m1
  have f2 := (setConfig_field s h.SPS_30 hok).trans m2
  have f3 := (setConfig_field s h.SPS_60 hok).trans m3
  have f4 := (setConfig_field s h.SPS_240 hok).trans m4
  have same : ∀ t : ADS1110,
      t.setRes h res_t.RES_16 = t.setSampleRate h.SPS_15 ∧
      t.setRes h res_t.RES_15 = t.setSampleRate h.SPS_30 ∧
      t.setRes h res_t.RES_14 = t.setSampleRate h.SPS_60 ∧
      t.setRes h res_t.RES_12 = t.setSampleRate h.SPS_240 :=
    fun _ => ⟨rfl, rfl, rfl, rfl⟩
  have rates : (s.setSampleRate h.SPS_15).getSampleRate h = some 15 ∧
      (s.setSampleRate h.SPS_15).getRes h = some 16 ∧
      (s.setSampleRate h.SPS_30).getSampleRate h = some 30 ∧
      (s.setSampleRate h.SPS_30).getRes h = some 15 ∧
      (s.setSampleRate h.SPS_60).getSampleRate h = some 60 ∧
      (s.setSampleRate h.SPS_60).getRes h = some 14 ∧
      (s.setSampleRate h.SPS_240).getSampleRate h = some 240 ∧
      (s.setSampleRate h.SPS_240).getRes h = some 12 := by
    simp only [setSampleRate, getSampleRate, getRes, f1, f2, f3, f4]
    simp [d1.symm, d2.symm, d3.symm, d4.symm, d5.symm, d6.symm]
  refine ⟨?_, rates, same⟩
  obtain ⟨r1, r2, r3, r4, r5, r6, r7, r8⟩ := rates
  rw [(same s).1, (same s).2.1, (same s).2.2.1, (same s).2.2.2]
  exact ⟨r2, r1, r4, r3, r6, r5, r8, r7⟩

theorem resolution_rate_round_trip_witness :
    datasheetHeader.wellFormed ∧ (scriptedDriver 0x0C [0] []).driver.nextResult = 0 ∧
      ((scriptedDriver 0x0C [0] []).setRes datasheetHeader res_t.RES_12).getRes
        datasheetHeader = some 12 ∧
      ((scriptedDriver 0x0C [0] []).setRes datasheetHeader res_t.RES_12).getSampleRate
        datasheetHeader = some 240 :=
  ⟨by decide, by decide,
    (resolution_rate_round_trip datasheetHeader (by decide) (scriptedDriver 0x0C [0] [])
      (by decide)).1.2.2.2.2.2.2.1,
    (resolution_rate_round_trip datasheetHeader (by decide) (scriptedDriver 0x0C [0] [])
      (by decide)).1.2.2.2.2.2.2.2⟩

/-- C6: after a successful `setGain(g)` with `g` one of the codes 0..3 `getGain` returns
`2 ^ g`, that is 1, 2, 4 or 8; and for every mirrored register value `getGain` returns one
of 1, 2, 4, 8. -/
theorem gain_round_trip (s : ADS1110) :
    (∀ g, g < 4 → s.driver.nextResult = 0 → (s.setGain g).getGain = 2 ^ g) ∧
    s.getGain ∈ [1, 2, 4, 8] := by
  refine ⟨?_, ?_⟩
  · intro g hg hok
    have hf : (s.setGain g)._config &&& GAIN_MASK = g := by
      rw [setGain, setConfig_config, if_pos hok, field_value _ _ _ (by decide)]
      have : GAIN_MASK = 2 ^ 2 - 1 := by decide
      rw [this, Nat.and_pow_two_sub_one_eq_mod]
      omega
    unfold getGain
    rw [hf]
    interval_cases g <;> decide
  · unfold getGain
    have hlt := and_gain_mask_lt s._config
    generalize s._config &&& GAIN_MASK = k at hlt
    interval_cases k <;> decide

theorem gain_round_trip_witness :
    (3 : Nat) < 4 ∧ (scriptedDriver 0x0C [0] []).driver.nextResult = 0 ∧
      ((scriptedDriver 0x0C [0] []).setGain 3).getGain = 2 ^ 3 :=
  ⟨by decide, by decide,
    (gain_round_trip (scriptedDriver 0x0C [0] [])).1 3 (by decide) (by decide)⟩

end ADS1110

/-! ## The transport operations -/

namespace TwoWire

@[simp] theorem read_answers (w : TwoWire) : w.read.2.answers = w.answers := by
  unfold read; split <;> rfl

@[simp] theorem read_endResults (w : TwoWire) : w.read.2.endResults = w.endResults := by
  unfold read; split <;> rfl

@[simp] theorem read_transmissions (w : TwoWire) :
    w.read.2.transmissions = w.transmissions := by
  unfold read; split <;> rfl

@[simp] theorem read_requests (w : TwoWire) : w.read.2.requests = w.requests := by
  unfold read; split <;> rfl

@[simp] theorem read_readRequests (w : TwoWire) :
    readRequests w.read.2.log = readRequests w.log := by
  unfold read; split <;> simp [readRequests, BusEvent.isRequest]

theorem read_cons (w : TwoWire) (b : Fin 256) (rest : List (Fin 256))
    (h : w.rxBuffer = b :: rest) :
    w.read = ((b.val : Int),
      { w with rxBuffer := rest, log := w.log ++ [BusEvent.read (b.val : Int)] }) := by
  unfold read; rw [h]

end TwoWire

namespace ADS1110

/-- With at least as many iterations as bytes, the loop of `emptyBuffer` ends because the
buffer is empty, having read every byte. -/
theorem emptyBufferLoop_eq (fuel : Nat) (w : TwoWire) (h : w.rxBuffer.length ≤ fuel) :
    emptyBufferLoop fuel w =
      { w with
        rxBuffer := []
        log := w.log ++ w.rxBuffer.map (fun b => BusEvent.read (b.val : Int)) } := by
  induction fuel generalizing w with
  | zero =>
    have : w.rxBuffer = [] := List.length_eq_zero.mp (Nat.le_zero.mp h)
    cases w
    simp_all [emptyBufferLoop]
  | succ n ih =>
    cases hw : w.rxBuffer with
    | nil =>
      cases w
      simp_all [emptyBufferLoop, TwoWire.available]
    | cons b rest =>
      have hav : w.available ≠ 0 := by simp [TwoWire.available, hw]
      rw [emptyBufferLoop, if_pos hav, TwoWire.read_cons w b rest hw, ih]
      · simp
      · simp only [hw, List.length_cons] at h
        simpa using h

theorem emptyBuffer_eq (s : ADS1110) :
    s.emptyBuffer =
      { s with
        driver :=
          { s.driver with
            rxBuffer := []
            log := s.driver.log ++
              s.driver.rxBuffer.map (fun b => BusEvent.read (b.val : Int)) } } := by
  unfold emptyBuffer
  rw [emptyBufferLoop_eq s.driver.available s.driver (Nat.le_refl _)]

theorem ping_fst (s : ADS1110) : s.ping.1 = s.driver.nextResult := rfl

theorem ping_snd (s : ADS1110) :
    s.ping.2 =
      { s with
        driver :=
          { s.driver with
            transmissions := s.driver.transmissions + 1
            txAddress := s._devAddr
            txBuffer := []
            log := s.driver.log ++
              [BusEvent.transmission s._devAddr [s._config % 256] s.driver.nextResult] } } := by
  simp [ping, TwoWire.endTransmission, TwoWire.write, TwoWire.beginTransmission,
    TwoWire.nextResult]

theorem shortRead_eq (s : ADS1110) :
    s.shortRead =
      { s with
        _comBuffer := s.driver.nextResult
        driver :=
          { s.driver with
            requests := s.driver.requests + 1
            transmissions := s.driver.transmissions + 1
            txAddress := s._devAddr
            txBuffer := []
            rxBuffer := []
            log := s.driver.log ++
              BusEvent.request s._devAddr NUM_BYTES s.driver.nextAnswer ::
                s.driver.nextAnswer.map (fun b => BusEvent.read (b.val : Int)) ++
              [BusEvent.transmission s._devAddr [s._config % 256] s.driver.nextResult] } } := by
  unfold shortRead
  rw [ping_fst, ping_snd, emptyBuffer_eq]
  simp [TwoWire.requestFrom, TwoWire.nextResult]

theorem polled_eq (s : ADS1110) (hi lo cfg : Fin 256)
    (h : s.driver.nextAnswer = [hi, lo, cfg]) :
    s.polled =
      { s with
        driver :=
          { s.driver with
            requests := s.driver.requests + 1
            rxBuffer := []
            log := s.driver.log ++
              [BusEvent.request s._devAddr NUM_BYTES [hi, lo, cfg], BusEvent.read (hi.val : Int),
                BusEvent.read (lo.val : Int), BusEvent.read (cfg.val : Int)] } } := by
  unfold polled
  simp [TwoWire.requestFrom, h, TwoWire.read]

end ADS1110

/-! ## One iteration of the poll loop -/

theorem lor_shiftLeft_byte (a b : Fin 256) :
    Int.lor ((a.val : Int) <<< (8 : Int)) (b.val : Int) = (a.val : Int) * 256 + (b.val : Int) := by
  have h : ((a.val : Int) <<< (8 : Int)) = ((a.val <<< 8 : Nat) : Int) :=
    Int.shiftLeft_coe_nat a.val 8
  rw [h]
  show ((a.val <<< 8 ||| b.val : Nat) : Int) = _
  rw [Nat.shiftLeft_eq, Nat.mul_comm, ← Nat.mul_add_lt_is_or b.isLt]
  push_cast
  ring

theorem toNat_byte (b : Fin 256) : ((b.val : Int) % 256).toNat = b.val := by
  have := b.isLt
  omega

set_option maxRecDepth 100000 in
theorem bitRead_seven (b : Fin 256) : bitRead b.val 7 ≠ 0 ↔ b.val.testBit 7 = true := by
  revert b
  decide

theorem notReady_iff (answer : List (Fin 256)) :
    notReady answer = true ↔
      ∃ hi lo cfg, answer = [hi, lo, cfg] ∧ cfg.val.testBit 7 = true := by
  constructor
  · intro h
    match answer, h with
    | [hi, lo, cfg], h => exact ⟨hi, lo, cfg, rfl, h⟩
  · rintro ⟨hi, lo, cfg, rfl, h⟩
    exact h

namespace ADS1110

theorem pollLoop_exit (fuel : Nat) (s : ADS1110) (attemptCount : Nat) (devData : Int)
    (hf : 0 < fuel) (ha : ¬ attemptCount < MAX_NUM_ATTEMPTS) :
    pollLoop fuel s attemptCount devData = some (LoopExit.finished devData s) := by
  obtain ⟨f, rfl⟩ : ∃ f, fuel = f + 1 := ⟨fuel - 1, by omega⟩
  rw [pollLoop, if_neg ha]

theorem pollLoop_three (s : ADS1110) (fuel attemptCount : Nat) (devData : Int)
    (hi lo cfg : Fin 256) (ha : attemptCount < MAX_NUM_ATTEMPTS)
    (hans : s.driver.nextAnswer = [hi, lo, cfg]) :
    pollLoop (fuel + 1) s attemptCount devData =
      if cfg.val.testBit 7 = true then
        pollLoop fuel s.polled (attemptCount + 1) ((hi.val : Int) * 256 + (lo.val : Int))
      else
        some (LoopExit.returned (rebase ((hi.val : Int) * 256 + (lo.val : Int))) s.polled) := by
  have hmod : (attemptCount + 1) % 256 = attemptCount + 1 := by
    unfold MAX_NUM_ATTEMPTS at ha
    omega
  rw [pollLoop, if_pos ha, polled_eq s hi lo cfg hans]
  simp only [TwoWire.requestFrom, TwoWire.available, hans, List.length_cons, List.length_nil,
    NUM_BYTES, TwoWire.read, lor_shiftLeft_byte, toNat_byte, bitRead_seven, hmod]
  simp

theorem pollLoop_busy (s : ADS1110) (fuel attemptCount : Nat) (devData : Int)
    (hf : 0 < fuel) (ha : attemptCount < MAX_NUM_ATTEMPTS)
    (hb : notReady s.driver.nextAnswer = true) :
    pollLoop fuel s attemptCount devData =
      pollLoop (fuel - 1) s.polled (attemptCount + 1) (dataWord s.driver.nextAnswer) := by
  obtain ⟨f, rfl⟩ : ∃ f, fuel = f + 1 := ⟨fuel - 1, by omega⟩
  obtain ⟨hi, lo, cfg, hans, hbit⟩ := (notReady_iff _).mp hb
  rw [pollLoop_three s f attemptCount devData hi lo cfg ha hans, if_pos hbit, hans]
  rfl

theorem pollLoop_ready (s : ADS1110) (fuel attemptCount : Nat) (devData : Int)
    (hi lo cfg : Fin 256) (hf : 0 < fuel) (ha : attemptCount < MAX_NUM_ATTEMPTS)
    (hans : s.driver.nextAnswer = [hi, lo, cfg]) (hbit : cfg.val.testBit 7 = false) :
    pollLoop fuel s attemptCount devData =
      some (LoopExit.returned (rebase ((hi.val : Int) * 256 + (lo.val : Int))) s.polled) := by
  obtain ⟨f, rfl⟩ : ∃ f, fuel = f + 1 := ⟨fuel - 1, by omega⟩
  rw [pollLoop_three s f attemptCount devData hi lo cfg ha hans, if_neg (by simp [hbit])]

theorem pollLoop_short (s : ADS1110) (fuel attemptCount : Nat) (devData : Int)
    (hf : 1 < fuel) (ha : attemptCount < MAX_NUM_ATTEMPTS)
    (hlen : s.driver.nextAnswer.length ≠ 3) :
    pollLoop fuel s attemptCount devData = some (LoopExit.finished 0 s.shortRead) := by
  obtain ⟨f, rfl⟩ : ∃ f, fuel = f + 2 := ⟨fuel - 2, by omega⟩
  have hav : ¬ (s.driver.requestFrom s._devAddr NUM_BYTES).2.available = NUM_BYTES := by
    simpa [TwoWire.requestFrom, TwoWire.available, NUM_BYTES] using hlen
  rw [pollLoop, if_pos ha]
  simp only [hav, if_false]
  rw [pollLoop_exit _ _ _ _ (by omega) (by simp)]
  rfl

end ADS1110

/-! ## Several polls -/

namespace ADS1110

theorem polled_fields (s : ADS1110) :
    s.polled._config = s._config ∧ s.polled._devAddr = s._devAddr ∧
      s.polled._comBuffer = s._comBuffer ∧ s.polled.driver.answers = s.driver.answers ∧
      s.polled.driver.endResults = s.driver.endResults ∧
      s.polled.driver.transmissions = s.driver.transmissions ∧
      s.polled.driver.requests = s.driver.requests + 1 := by
  simp [polled, TwoWire.requestFrom]

theorem polled_log (s : ADS1110) :
    ∃ events, s.polled.driver.log = s.driver.log ++ events ∧ readRequests events = 1 := by
  refine ⟨BusEvent.request s._devAddr NUM_BYTES s.driver.nextAnswer ::
    (s.polled.driver.log.drop (s.driver.log.length + 1)), ?_, ?_⟩
  · unfold polled TwoWire.read
    simp only [TwoWire.requestFrom]
    split <;> split <;> split <;> simp
  · unfold polled TwoWire.read
    simp only [TwoWire.requestFrom]
    split <;> split <;> split <;> simp [readRequests, BusEvent.isRequest]

theorem polled_iterate_fields (k : Nat) (s : ADS1110) :
    (polled^[k] s)._config = s._config ∧ (polled^[k] s)._devAddr = s._devAddr ∧
      (polled^[k] s)._comBuffer = s._comBuffer ∧
      (polled^[k] s).driver.answers = s.driver.answers ∧
      (polled^[k] s).driver.endResults = s.driver.endResults ∧
      (polled^[k] s).driver.transmissions = s.driver.transmissions ∧
      (polled^[k] s).driver.requests = s.driver.requests + k := by
  induction k with
  | zero => simp
  | succ n ih =>
    rw [Function.iterate_succ_apply']
    obtain ⟨a1, a2, a3, a4, a5, a6, a7⟩ := polled_fields (polled^[n] s)
    obtain ⟨b1, b2, b3, b4, b5, b6, b7⟩ := ih
    refine ⟨a1.trans b1, a2.trans b2, a3.trans b3, a4.trans b4, a5.trans b5, a6.trans b6, ?_⟩
    rw [a7, b7]
    omega

theorem polled_iterate_log (k : Nat) (s : ADS1110) :
    ∃ events, (polled^[k] s).driver.log = s.driver.log ++ events ∧
      readRequests events = k := by
  induction k with
  | zero => exact ⟨[], by simp, rfl⟩
  | succ n ih =>
    rw [Function.iterate_succ_apply']
    obtain ⟨ev, h1, h2⟩ := ih
    obtain ⟨ev', h3, h4⟩ := polled_log (polled^[n] s)
    refine ⟨ev ++ ev', ?_, ?_⟩
    · rw [h3, h1, List.append_assoc]
    · simp only [readRequests, List.countP_append] at *
      omega

theorem polled_pollAnswer (s : ADS1110) (j : Nat) :
    s.polled.pollAnswer j = s.pollAnswer (j + 1) := by
  obtain ⟨-, -, -, a4, -, -, a7⟩ := polled_fields s
  unfold pollAnswer
  rw [a4, a7]
  congr 1
  omega

/-- As long as the answers are not ready the loop goes on with the next attempt. -/
theorem pollLoop_busy_iterate (k : Nat) :
    ∀ (s : ADS1110) (fuel attemptCount : Nat) (devData : Int),
      k ≤ fuel → attemptCount + k ≤ MAX_NUM_ATTEMPTS →
      (∀ j, j < k → notReady (s.pollAnswer j) = true) →
      pollLoop fuel s attemptCount devData =
        pollLoop (fuel - k) (polled^[k] s) (attemptCount + k)
          (if k = 0 then devData else dataWord (s.pollAnswer (k - 1))) := by
  induction k with
  | zero =>
    intro s fuel attemptCount devData _ _ _
    simp
  | succ n ih =>
    intro s fuel attemptCount devData hf ha hb
    have h0 : notReady s.driver.nextAnswer = true := hb 0 (by omega)
    rw [pollLoop_busy s fuel attemptCount devData (by omega) (by omega) h0,
      ih s.polled (fuel - 1) (attemptCount + 1) _ (by omega) (by omega)
        (fun j hj => by rw [polled_pollAnswer]; exact hb (j + 1) (by omega))]
    rw [Function.iterate_succ_apply]
    have e1 : fuel - 1 - n = fuel - (n + 1) := by omega
    have e2 : attemptCount + 1 + n = attemptCount + (n + 1) := by omega
    rw [e1, e2]
    congr 1
    by_cases hn : n = 0
    · subst hn
      simp [pollAnswer, TwoWire.nextAnswer]
    · rw [if_neg hn, if_neg (by omega), polled_pollAnswer]
      congr 2
      omega

/-! ## The whole of `getData` -/

theorem live_fields (s : ADS1110) :
    s.live._config = s._config ∧ s.live._devAddr = s._devAddr ∧
      s.live.driver.answers = s.driver.answers ∧
      s.live.driver.endResults = s.driver.endResults ∧
      s.live.driver.requests = s.driver.requests ∧
      s.live.driver.transmissions = s.driver.transmissions + s.triggerCount + 1 ∧
      (∃ events, s.live.driver.log = s.driver.log ++ events ∧ readRequests events = 0) := by
  unfold live triggerCount
  by_cases h : bitRead s._config 4 ≠ 0
  · simp only [if_pos h]
    refine ⟨by rfl, by rfl, by rfl, by rfl, by rfl, by rfl, ?_⟩
    refine ⟨[BusEvent.transmission s._devAddr [(s._config ||| START_CONVERSION) % 256 % 256]
        s.driver.nextResult,
      BusEvent.transmission s._devAddr [s._config % 256]
        (s.driver.endResults (s.driver.transmissions + 1)).val], ?_, ?_⟩
    · simp [ping, initCall, endCall, TwoWire.endTransmission, TwoWire.write,
        TwoWire.beginTransmission, TwoWire.nextResult]
    · simp [readRequests, BusEvent.isRequest]
  · simp only [if_neg h]
    refine ⟨by rfl, by rfl, by rfl, by rfl, by rfl, by rfl, ?_⟩
    refine ⟨[BusEvent.transmission s._devAddr [s._config % 256] s.driver.nextResult], ?_, ?_⟩
    · simp [ping, TwoWire.endTransmission, TwoWire.write, TwoWire.beginTransmission,
        TwoWire.nextResult]
    · simp [readRequests, BusEvent.isRequest]

theorem getData_eq (s : ADS1110) :
    s.getData =
      if s.livenessResult ≠ 0 then some (0, s.live)
      else
        match s.live.pollLoop (MAX_NUM_ATTEMPTS + 1) 0 0 with
        | none => none
        | some (LoopExit.returned value s2) => some (value, s2)
        | some (LoopExit.finished devData s2) =>
          if bitRead s2._config 4 = 0 then
            some (rebase devData, { s2.ping.2 with _comBuffer := s2.ping.1 })
          else some (0, s2) := by
  have hp : (if bitRead s._config 4 ≠ 0 then
      (s.initCall ((s._config ||| START_CONVERSION) % 256)).endCall else s).ping.1 =
      s.livenessResult := by
    unfold livenessResult triggerCount
    by_cases h : bitRead s._config 4 ≠ 0
    · simp only [if_pos h]
      rfl
    · simp only [if_neg h]
      rfl
  unfold getData
  simp only [hp]
  rfl

theorem getConMode_cases (s : ADS1110) : s.getConMode = 0 ∨ s.getConMode = 1 := by
  have h : s.getConMode ≤ 1 := by
    unfold getConMode bitRead
    exact Nat.and_le_right
  omega

/-- The state after the liveness ping and `k` polls that were not ready. -/
theorem busy_state_fields (s : ADS1110) (k : Nat) :
    (polled^[k] s.live)._config = s._config ∧ (polled^[k] s.live)._devAddr = s._devAddr ∧
      (polled^[k] s.live).driver.nextAnswer = s.pollAnswer k ∧
      (polled^[k] s.live).driver.nextResult =
        (s.driver.endResults (s.driver.transmissions + s.triggerCount + 1)).val ∧
      (polled^[k] s.live).driver.endResults = s.driver.endResults ∧
      (polled^[k] s.live).driver.transmissions =
        s.driver.transmissions + s.triggerCount + 1 ∧
      (∃ events, (polled^[k] s.live).driver.log = s.driver.log ++ events ∧
        readRequests events = k) := by
  obtain ⟨a1, a2, -, a4, a5, a6, a7⟩ := polled_iterate_fields k s.live
  obtain ⟨b1, b2, b3, b4, b5, b6, ev, b7, b8⟩ := live_fields s
  obtain ⟨ev', c1, c2⟩ := polled_iterate_log k s.live
  refine ⟨a1.trans b1, a2.trans b2, ?_, ?_, a5.trans b4, a6.trans b6, ev ++ ev', ?_, ?_⟩
  · unfold TwoWire.nextAnswer pollAnswer
    rw [a4, a7, b3, b5]
  · unfold TwoWire.nextResult
    rw [a5, a6, b4, b6]
  · rw [c1, b7, List.append_assoc]
  · simp only [readRequests, List.countP_append] at *
    omega

theorem loop_after_busy (s : ADS1110) (k : Nat) (hk : k ≤ MAX_NUM_ATTEMPTS)
    (hbusy : ∀ j, j < k → notReady (s.pollAnswer j) = true) :
    s.live.pollLoop (MAX_NUM_ATTEMPTS + 1) 0 0 =
      pollLoop (MAX_NUM_ATTEMPTS + 1 - k) (polled^[k] s.live) k
        (if k = 0 then 0 else dataWord (s.pollAnswer (k - 1))) := by
  obtain ⟨-, -, b3, -, b5, -, -⟩ := live_fields s
  have same : ∀ j, s.live.pollAnswer j = s.pollAnswer j := by
    intro j
    unfold pollAnswer
    rw [b3, b5]
  rw [pollLoop_busy_iterate k s.live (MAX_NUM_ATTEMPTS + 1) 0 0 (by omega) (by omega)
    (fun j hj => by rw [same]; exact hbusy j hj), Nat.zero_add, same]

theorem readRequests_append (l₁ l₂ : List BusEvent) :
    readRequests (l₁ ++ l₂) = readRequests l₁ + readRequests l₂ := by
  simp [readRequests, List.countP_append]

theorem readRequests_reads (bytes : List (Fin 256)) :
    readRequests (bytes.map (fun b => BusEvent.read (b.val : Int))) = 0 := by
  unfold readRequests
  rw [List.countP_eq_zero]
  intro e he
  obtain ⟨b, -, rfl⟩ := List.mem_map.mp he
  simp [BusEvent.isRequest]

theorem shortRead_log (s : ADS1110) :
    s.shortRead.driver.log =
      s.driver.log ++
        ([BusEvent.request s._devAddr NUM_BYTES s.driver.nextAnswer] ++
          s.driver.nextAnswer.map (fun b => BusEvent.read (b.val : Int))) ++
        [BusEvent.transmission s._devAddr [s._config % 256] s.driver.nextResult] := by
  rw [shortRead_eq]
  simp

theorem ping_log (s : ADS1110) :
    ({ s.ping.2 with _comBuffer := s.ping.1 } : ADS1110).driver.log =
      s.driver.log ++
        [BusEvent.transmission s._devAddr [s._config % 256] s.driver.nextResult] := by
  rw [ping_snd]

/-- With one evaluation of its condition more than attempts left, the loop ends, and it makes
at most as many read requests as attempts were left. -/
theorem pollLoop_total (fuel : Nat) :
    ∀ (s : ADS1110) (attemptCount : Nat) (devData : Int),
      MAX_NUM_ATTEMPTS - attemptCount < fuel →
      ∃ exit, pollLoop fuel s attemptCount devData = some exit ∧
        readRequests exit.state.driver.log ≤
          readRequests s.driver.log + (MAX_NUM_ATTEMPTS - attemptCount) := by
  induction fuel with
  | zero =>
    intro s attemptCount devData h
    omega
  | succ n ih =>
    intro s attemptCount devData h
    by_cases ha : attemptCount < MAX_NUM_ATTEMPTS
    · by_cases hlen : s.driver.nextAnswer.length = 3
      · obtain ⟨hi, lo, cfg, hans⟩ := List.length_eq_three.mp hlen
        obtain ⟨ev, hlog, hcount⟩ := polled_log s
        rw [pollLoop_three s n attemptCount devData hi lo cfg ha hans]
        by_cases hbit : cfg.val.testBit 7 = true
        · rw [if_pos hbit]
          obtain ⟨exit, he, hb⟩ := ih s.polled (attemptCount + 1)
            ((hi.val : Int) * 256 + (lo.val : Int)) (by omega)
          refine ⟨exit, he, ?_⟩
          rw [hlog] at hb
          simp only [readRequests, List.countP_append] at *
          omega
        · rw [if_neg hbit]
          refine ⟨_, rfl, ?_⟩
          simp only [LoopExit.state]
          rw [hlog]
          simp only [readRequests, List.countP_append] at *
          omega
      · rw [pollLoop_short s (n + 1) attemptCount devData (by omega) ha hlen]
        refine ⟨_, rfl, ?_⟩
        simp only [LoopExit.state]
        rw [shortRead_log, readRequests_append, readRequests_append, readRequests_append,
          readRequests_reads]
        have e1 : readRequests [BusEvent.request s._devAddr NUM_BYTES s.driver.nextAnswer] = 1 :=
          rfl
        have e2 : readRequests
            [BusEvent.transmission s._devAddr [s._config % 256] s.driver.nextResult] = 0 := rfl
        rw [e1, e2]
        omega
    · rw [pollLoop_exit (n + 1) s attemptCount devData (by omega) ha]
      exact ⟨_, rfl, by simp [LoopExit.state]⟩

/-! ## The outcomes of `getData` -/

set_option maxRecDepth 100000 in
theorem getData_raw_words :
    (scriptedDriver 0x0C [0] [[0x00, 0x00, 0x0C]]).getData.map Prod.fst = some 0 ∧
      (scriptedDriver 0x0C [0] [[0x7F, 0xFF, 0x0C]]).getData.map Prod.fst = some 32767 ∧
      (scriptedDriver 0x0C [0] [[0x80, 0x00, 0x0C]]).getData.map Prod.fst = some (-32768) ∧
      (scriptedDriver 0x0C [0] [[0xFF, 0xFF, 0x0C]]).getData.map Prod.fst = some (-1) := by
  decide

/-- C7: when the liveness ping succeeds and a poll (after any number of polls that were not
ready) receives exactly the three bytes `hi`, `lo`, `cfg` with bit 7 of `cfg` clear, `getData`
returns `u` if `u < 32768` and `u - 65536` otherwise, where `u = hi * 256 + lo`; the value is
in [-32768, 32767], and the raw words 0, 32767, 32768, 65535 give 0, 32767, -32768, -1. -/
theorem getData_ready_value (s : ADS1110) (k : Nat) (hi lo cfg : Fin 256)
    (hk : k < MAX_NUM_ATTEMPTS) (hping : s.livenessResult = 0)
    (hbusy : ∀ j, j < k → notReady (s.pollAnswer j) = true)
    (hans : s.pollAnswer k = [hi, lo, cfg]) (hready : cfg.val.testBit 7 = false) :
    s.getData.map Prod.fst =
        some (if (hi.val : Int) * 256 + (lo.val : Int) < 32768 then
            (hi.val : Int) * 256 + (lo.val : Int)
          else (hi.val : Int) * 256 + (lo.val : Int) - 65536) ∧
      (∀ value, s.getData.map Prod.fst = some value → -32768 ≤ value ∧ value ≤ 32767) ∧
      (scriptedDriver 0x0C [0] [[0x00, 0x00, 0x0C]]).getData.map Prod.fst = some 0 ∧
      (scriptedDriver 0x0C [0] [[0x7F, 0xFF, 0x0C]]).getData.map Prod.fst = some 32767 ∧
      (scriptedDriver 0x0C [0] [[0x80, 0x00, 0x0C]]).getData.map Prod.fst = some (-32768) ∧
      (scriptedDriver 0x0C [0] [[0xFF, 0xFF, 0x0C]]).getData.map Prod.fst = some (-1) := by
  obtain ⟨-, -, c3, -, -, -, -⟩ := busy_state_fields s k
  have hval : s.getData.map Prod.fst =
      some (if (hi.val : Int) * 256 + (lo.val : Int) < 32768 then
          (hi.val : Int) * 256 + (lo.val : Int)
        else (hi.val : Int) * 256 + (lo.val : Int) - 65536) := by
    rw [getData_eq, if_neg (by simp [hping]), loop_after_busy s k (by omega) hbusy,
      pollLoop_ready _ _ k _ hi lo cfg (by omega) hk (c3.trans hans) hready]
    simp only [Option.map_some', rebase, Option.some.injEq]
    split <;> split <;> omega
  refine ⟨hval, ?_, getData_raw_words⟩
  intro value hv
  rw [hval] at hv
  have h1 := hi.isLt
  have h2 := lo.isLt
  have hv' := Option.some.inj hv
  subst hv'
  split <;> omega

theorem getData_ready_value_witness :
    (1 : Nat) < MAX_NUM_ATTEMPTS ∧
      (scriptedDriver 0x1C [0, 0] [[0x12, 0x34, 0x9C], [0x80, 0x01, 0x1C]]).livenessResult = 0 ∧
      (scriptedDriver 0x1C [0, 0] [[0x12, 0x34, 0x9C], [0x80, 0x01, 0x1C]]).getData.map
        Prod.fst = some (-32767) :=
  ⟨by decide, by decide,
    (getData_ready_value
      (scriptedDriver 0x1C [0, 0] [[0x12, 0x34, 0x9C], [0x80, 0x01, 0x1C]]) 1 0x80 0x01 0x1C
      (by decide) (by decide) (by decide) rfl (by decide)).1.trans (by decide)⟩

/-- C8: in either conversion mode, when the liveness ping succeeds and a poll (after any
number of polls that were not ready) receives a number of bytes other than 3, `getData`
returns 0 having read every received byte (the receive buffer is empty), makes no read
request after that one, and leaves in the communication result the code of the last ping it
made after emptying the buffer: one ping follows in single-shot mode, two in continuous mode,
and in both the stored code is that of the third transmission of the call. -/
theorem getData_short_read (s : ADS1110) (k : Nat)
    (hk : k < MAX_NUM_ATTEMPTS) (hping : s.livenessResult = 0)
    (hbusy : ∀ j, j < k → notReady (s.pollAnswer j) = true)
    (hshort : (s.pollAnswer k).length ≠ 3) :
    ∃ s' before pings,
      s.getData = some (0, s') ∧
      s'.driver.available = 0 ∧
      s'.driver.log =
        s.driver.log ++ before ++
          ([BusEvent.request s._devAddr NUM_BYTES (s.pollAnswer k)] ++
            (s.pollAnswer k).map (fun b => BusEvent.read (b.val : Int))) ++ pings ∧
      readRequests before = k ∧
      (s.getConMode = 1 →
        pings = [BusEvent.transmission s._devAddr [s._config % 256] s'.getComResult]) ∧
      (s.getConMode = 0 →
        pings = [BusEvent.transmission s._devAddr [s._config % 256]
            (s.driver.endResults (s.driver.transmissions + 1)).val,
          BusEvent.transmission s._devAddr [s._config % 256] s'.getComResult]) ∧
      s'.getComResult = (s.driver.endResults (s.driver.transmissions + 2)).val ∧
      readRequests s'.driver.log = readRequests s.driver.log + (k + 1) := by
  obtain ⟨c1, c2, c3, c4, c5, c6, ev, c7, c8⟩ := busy_state_fields s k
  have hloop : s.live.pollLoop (MAX_NUM_ATTEMPTS + 1) 0 0 =
      some (LoopExit.finished 0 (polled^[k] s.live).shortRead) := by
    rw [loop_after_busy s k (by omega) hbusy,
      pollLoop_short _ _ k _ (by unfold MAX_NUM_ATTEMPTS at *; omega) hk (by rw [c3]; exact hshort)]
  have hcfg : (polled^[k] s.live).shortRead._config = s._config := by
    rw [shortRead_eq]
    exact c1
  have hlog := shortRead_log (polled^[k] s.live)
  rw [c7, c2, c3, c1, c4] at hlog
  have hcom : (polled^[k] s.live).shortRead._comBuffer =
      (s.driver.endResults (s.driver.transmissions + s.triggerCount + 1)).val := by
    rw [shortRead_eq]
    exact c4
  have hbuf : (polled^[k] s.live).shortRead.driver.rxBuffer = [] := by
    rw [shortRead_eq]
  have hcount : ∀ l : List BusEvent,
      readRequests (s.driver.log ++ ev ++
        ([BusEvent.request s._devAddr NUM_BYTES (s.pollAnswer k)] ++
          (s.pollAnswer k).map (fun b => BusEvent.read (b.val : Int))) ++ l) =
        readRequests s.driver.log + (k + 1) + readRequests l := by
    intro l
    rw [readRequests_append, readRequests_append, readRequests_append, readRequests_append,
      readRequests_reads, c8]
    have e1 : readRequests [BusEvent.request s._devAddr NUM_BYTES (s.pollAnswer k)] = 1 := rfl
    rw [e1]
    omega
  rw [getData_eq, if_neg (by simp [hping]), hloop]
  rcases getConMode_cases s with hm | hm
  · -- continuous mode: the fall-back path pings once more
    have hb : bitRead (polled^[k] s.live).shortRead._config 4 = 0 := by
      rw [hcfg]
      exact hm
    have htc : s.triggerCount = 0 := by
      unfold triggerCount
      rw [if_neg (by simpa [getConMode] using hm)]
    have hnext : (polled^[k] s.live).shortRead.driver.nextResult =
        (s.driver.endResults (s.driver.transmissions + 2)).val := by
      rw [shortRead_eq]
      simp only [TwoWire.nextResult]
      rw [c5, c6, htc]
    have hdev : (polled^[k] s.live).shortRead._devAddr = s._devAddr := by
      rw [shortRead_eq]
      exact c2
    have hlog2 := ping_log (polled^[k] s.live).shortRead
    rw [hlog, hdev, hcfg, hnext, htc, List.append_assoc _ [_] [_]] at hlog2
    simp only [hb, if_true]
    refine ⟨_, ev,
      [BusEvent.transmission s._devAddr [s._config % 256]
          (s.driver.endResults (s.driver.transmissions + 1)).val,
        BusEvent.transmission s._devAddr [s._config % 256]
          (s.driver.endResults (s.driver.transmissions + 2)).val],
      by simp [rebase], ?_, hlog2, c8, ?_, ?_, ?_, ?_⟩
    · rw [ping_snd]
      simp [TwoWire.available, hbuf]
    · intro h1
      omega
    · intro _
      simp only [getComResult, ping_fst, hnext]
    · simp only [getComResult, ping_fst, hnext]
    · rw [hlog2, hcount]
      rfl
  · -- single-shot mode
    have hb : ¬ bitRead (polled^[k] s.live).shortRead._config 4 = 0 := by
      rw [hcfg]
      unfold getConMode at hm
      omega
    have htc : s.triggerCount = 1 := by
      unfold triggerCount
      rw [if_pos (by unfold getConMode at hm; omega)]
    simp only [hb, if_false]
    refine ⟨_, ev, _, rfl, ?_, hlog, c8, ?_, ?_, ?_, ?_⟩
    · simp [TwoWire.available, hbuf]
    · intro _
      simp only [getComResult, hcom]
    · intro h0
      omega
    · simp only [getComResult, hcom, htc]
    · rw [hlog, hcount]
      rfl

theorem getData_short_read_witness :
    (0 : Nat) < MAX_NUM_ATTEMPTS ∧
      (scriptedDriver 0x0C [0, 5, 6] [[0x80, 0x00]]).livenessResult = 0 ∧
      ((scriptedDriver 0x0C [0, 5, 6] [[0x80, 0x00]]).pollAnswer 0).length ≠ 3 ∧
      ∃ s', (scriptedDriver 0x0C [0, 5, 6] [[0x80, 0x00]]).getData = some (0, s') ∧
        s'.driver.available = 0 ∧ s'.getComResult = 6 := by
  refine ⟨by decide, by decide, by decide, ?_⟩
  obtain ⟨s', before, pings, h1, h2, -, -, -, -, h3, -⟩ :=
    getData_short_read (scriptedDriver 0x0C [0, 5, 6] [[0x80, 0x00]]) 0 (by decide)
      (by decide) (by decide) (by decide)
  exact ⟨s', h1, h2, h3.trans (by decide)⟩

/-- The loop entered after `MAX_NUM_ATTEMPTS` polls that were not ready is left at once. -/
theorem loop_exhausted (s : ADS1110)
    (hbusy : ∀ j, j < MAX_NUM_ATTEMPTS → notReady (s.pollAnswer j) = true) :
    s.live.pollLoop (MAX_NUM_ATTEMPTS + 1) 0 0 =
      some (LoopExit.finished (dataWord (s.pollAnswer 2)) (polled^[MAX_NUM_ATTEMPTS] s.live)) := by
  rw [loop_after_busy s MAX_NUM_ATTEMPTS (Nat.le_refl _) hbusy,
    pollLoop_exit _ _ _ _ (by unfold MAX_NUM_ATTEMPTS; omega) (by omega)]
  rfl

/-- C9: in single-shot mode, when the liveness ping succeeds and each of the three polls
receives three bytes with the not-ready bit set, `getData` makes exactly 3 read requests and
returns 0, whatever the data bytes are; and in every state, for every behaviour of the
transport, `getData` returns and has made at most 3 read requests. -/
theorem getData_bounded_retry (s : ADS1110) :
    (s.getConMode = 1 → s.livenessResult = 0 →
      (∀ j, j < MAX_NUM_ATTEMPTS → notReady (s.pollAnswer j) = true) →
      ∃ s', s.getData = some (0, s') ∧
        readRequests s'.driver.log = readRequests s.driver.log + 3) ∧
    (∃ value s', s.getData = some (value, s') ∧
      readRequests s'.driver.log ≤ readRequests s.driver.log + 3) := by
  obtain ⟨b1, -, -, -, -, -, ev, b7, b8⟩ := live_fields s
  have hlive : readRequests s.live.driver.log = readRequests s.driver.log := by
    rw [b7, readRequests_append, b8, Nat.add_zero]
  refine ⟨?_, ?_⟩
  · intro hm hping hbusy
    obtain ⟨c1, -, -, -, -, -, ev', c7, c8⟩ := busy_state_fields s MAX_NUM_ATTEMPTS
    have hb : ¬ bitRead (polled^[MAX_NUM_ATTEMPTS] s.live)._config 4 = 0 := by
      rw [c1]
      unfold getConMode at hm
      omega
    rw [getData_eq, if_neg (by simp [hping]), loop_exhausted s hbusy]
    simp only [hb, if_false]
    refine ⟨_, rfl, ?_⟩
    rw [c7, readRequests_append, c8]
    rfl
  · rw [getData_eq]
    by_cases hping : s.livenessResult ≠ 0
    · rw [if_pos hping]
      exact ⟨0, s.live, rfl, by omega⟩
    · rw [if_neg hping]
      obtain ⟨exit, he, hb⟩ := pollLoop_total (MAX_NUM_ATTEMPTS + 1) s.live 0 0 (by omega)
      rw [he]
      have hb' : readRequests exit.state.driver.log ≤ readRequests s.driver.log + 3 := by
        rw [hlive] at hb
        exact hb
      cases exit with
      | returned value s2 => exact ⟨value, s2, rfl, hb'⟩
      | finished devData s2 =>
        by_cases hmode : bitRead s2._config 4 = 0
        · simp only [hmode, if_true]
          refine ⟨_, _, rfl, ?_⟩
          rw [ping_log, readRequests_append]
          exact hb'
        · simp only [hmode, if_false]
          exact ⟨_, _, rfl, hb'⟩

theorem getData_bounded_retry_witness :
    (scriptedDriver 0x1C [0, 0] [[0x12, 0x34, 0x9C], [0x56, 0x78, 0x9C],
        [0x9A, 0xBC, 0x9C]]).getConMode = 1 ∧
      (scriptedDriver 0x1C [0, 0] [[0x12, 0x34, 0x9C], [0x56, 0x78, 0x9C],
        [0x9A, 0xBC, 0x9C]]).livenessResult = 0 ∧
      ∃ s', (scriptedDriver 0x1C [0, 0] [[0x12, 0x34, 0x9C], [0x56, 0x78, 0x9C],
          [0x9A, 0xBC, 0x9C]]).getData = some (0, s') ∧
        readRequests s'.driver.log =
          readRequests (scriptedDriver 0x1C [0, 0] [[0x12, 0x34, 0x9C], [0x56, 0x78, 0x9C],
            [0x9A, 0xBC, 0x9C]]).driver.log + 3 :=
  ⟨by decide, by decide,
    (getData_bounded_retry (scriptedDriver 0x1C [0, 0] [[0x12, 0x34, 0x9C],
      [0x56, 0x78, 0x9C], [0x9A, 0xBC, 0x9C]])).1 (by decide) (by decide) (by decide)⟩

/-- C10: when the liveness ping succeeds and each of the three polls receives three bytes
with the not-ready bit set, then in continuous mode `getData` pings again, stores the result
code of that ping in the communication result and returns the value of the two data bytes of
the third poll, `u` if `u < 32768` and `u - 65536` otherwise; in single-shot mode it
returns 0. -/
theorem getData_exhausted_asymmetry (s : ADS1110) (hi lo cfg : Fin 256)
    (hping : s.livenessResult = 0)
    (hbusy : ∀ j, j < MAX_NUM_ATTEMPTS → notReady (s.pollAnswer j) = true)
    (hlast : s.pollAnswer 2 = [hi, lo, cfg]) :
    (s.getConMode = 0 →
      ∃ s', s.getData =
          some (if (hi.val : Int) * 256 + (lo.val : Int) < 32768 then
              (hi.val : Int) * 256 + (lo.val : Int)
            else (hi.val : Int) * 256 + (lo.val : Int) - 65536, s') ∧
        s'.getComResult = (s.driver.endResults (s.driver.transmissions + 1)).val ∧
        s'.driver.log.getLast? =
          some (BusEvent.transmission s._devAddr [s._config % 256] s'.getComResult)) ∧
    (s.getConMode = 1 → ∃ s', s.getData = some (0, s')) := by
  obtain ⟨c1, c2, -, c4, -, -, -⟩ := busy_state_fields s MAX_NUM_ATTEMPTS
  refine ⟨?_, ?_⟩
  · intro hm
    have hb : bitRead (polled^[MAX_NUM_ATTEMPTS] s.live)._config 4 = 0 := by
      rw [c1]
      exact hm
    have htc : s.triggerCount = 0 := by
      unfold triggerCount
      rw [if_neg (by simpa [getConMode] using hm)]
    rw [htc] at c4
    rw [getData_eq, if_neg (by simp [hping]), loop_exhausted s hbusy]
    simp only [hb, if_true]
    have hv : rebase (dataWord (s.pollAnswer 2)) =
        if (hi.val : Int) * 256 + (lo.val : Int) < 32768 then
          (hi.val : Int) * 256 + (lo.val : Int)
        else (hi.val : Int) * 256 + (lo.val : Int) - 65536 := by
      simp only [hlast, dataWord, rebase]
      split <;> split <;> omega
    refine ⟨{ (polled^[MAX_NUM_ATTEMPTS] s.live).ping.2 with
        _comBuffer := (polled^[MAX_NUM_ATTEMPTS] s.live).ping.1 }, by rw [hv], ?_, ?_⟩
    · simp only [getComResult, ping_fst, c4, Nat.add_zero]
    · rw [ping_log]
      simp only [getComResult, ping_fst, c1, c2, List.getLast?_append, List.getLast?_singleton]
      rfl
  · intro hm
    have hb : ¬ bitRead (polled^[MAX_NUM_ATTEMPTS] s.live)._config 4 = 0 := by
      rw [c1]
      unfold getConMode at hm
      omega
    rw [getData_eq, if_neg (by simp [hping]), loop_exhausted s hbusy]
    simp only [hb, if_false]
    exact ⟨_, rfl⟩

theorem getData_exhausted_asymmetry_witness :
    (scriptedDriver 0x0C [0, 4] [[0x12, 0x34, 0x8C], [0x56, 0x78, 0x8C],
        [0xFF, 0xFE, 0x8C]]).livenessResult = 0 ∧
      (scriptedDriver 0x0C [0, 4] [[0x12, 0x34, 0x8C], [0x56, 0x78, 0x8C],
        [0xFF, 0xFE, 0x8C]]).getConMode = 0 ∧
      ∃ s', (scriptedDriver 0x0C [0, 4] [[0x12, 0x34, 0x8C], [0x56, 0x78, 0x8C],
          [0xFF, 0xFE, 0x8C]]).getData = some (-2, s') ∧ s'.getComResult = 4 := by
  refine ⟨by decide, by decide, ?_⟩
  obtain ⟨s', h1, h2, -⟩ :=
    (getData_exhausted_asymmetry (scriptedDriver 0x0C [0, 4] [[0x12, 0x34, 0x8C],
      [0x56, 0x78, 0x8C], [0xFF, 0xFE, 0x8C]]) 0xFF 0xFE 0x8C (by decide) (by decide) rfl).1
      (by decide)
  have hv : (if (((0xFF : Fin 256).val : Nat) : Int) * 256 + (((0xFE : Fin 256).val : Nat) : Int)
        < 32768 then
      (((0xFF : Fin 256).val : Nat) : Int) * 256 + (((0xFE : Fin 256).val : Nat) : Int)
    else (((0xFF : Fin 256).val : Nat) : Int) * 256 + (((0xFE : Fin 256).val : Nat) : Int)
      - 65536) = -2 := by decide
  rw [hv] at h1
  exact ⟨s', h1, h2.trans (by decide)⟩

end ADS1110

/-! ## What `getData` leaves alone -/

namespace ADS1110

/-- The transmissions of `getData` before its loop: the trigger in single-shot mode, then
the liveness ping. -/
theorem live_log (s : ADS1110) :
    s.live.driver.log =
      s.driver.log ++
        (if bitRead s._config 4 ≠ 0 then
          [BusEvent.transmission s._devAddr [(s._config ||| START_CONVERSION) % 256 % 256]
              s.driver.nextResult,
            BusEvent.transmission s._devAddr [s._config % 256]
              (s.driver.endResults (s.driver.transmissions + 1)).val]
        else [BusEvent.transmission s._devAddr [s._config % 256] s.driver.nextResult]) := by
  unfold live
  by_cases h : bitRead s._config 4 ≠ 0
  · simp only [if_pos h]
    simp [ping, initCall, endCall, TwoWire.endTransmission, TwoWire.write,
      TwoWire.beginTransmission, TwoWire.nextResult]
  · simp only [if_neg h]
    simp [ping, TwoWire.endTransmission, TwoWire.write, TwoWire.beginTransmission,
      TwoWire.nextResult]

theorem live_rest (s : ADS1110) :
    s.live._vref = s._vref ∧ s.live.driver.rxBuffer = s.driver.rxBuffer ∧
      s.live._comBuffer = if bitRead s._config 4 ≠ 0 then s.driver.nextResult
        else s._comBuffer := by
  unfold live
  by_cases h : bitRead s._config 4 ≠ 0
  · simp only [if_pos h]
    exact ⟨by rfl, by rfl, by rfl⟩
  · simp only [if_neg h]
    exact ⟨by rfl, by rfl, by rfl⟩

theorem polled_rest (s : ADS1110) :
    s.polled._vref = s._vref ∧
      ∃ events, s.polled.driver.log = s.driver.log ++ events := by
  obtain ⟨ev, h, -⟩ := polled_log s
  exact ⟨rfl, ev, h⟩

/-- The poll loop changes neither the mirror, nor the address, nor the reference, and only
adds to the bus log. -/
theorem pollLoop_frame (fuel : Nat) :
    ∀ (s : ADS1110) (attemptCount : Nat) (devData : Int) (exit : LoopExit),
      pollLoop fuel s attemptCount devData = some exit →
      exit.state._config = s._config ∧ exit.state._devAddr = s._devAddr ∧
        exit.state._vref = s._vref ∧
        ∃ events, exit.state.driver.log = s.driver.log ++ events := by
  induction fuel with
  | zero =>
    intro s attemptCount devData exit h
    simp [pollLoop] at h
  | succ n ih =>
    intro s attemptCount devData exit h
    by_cases ha : attemptCount < MAX_NUM_ATTEMPTS
    · by_cases hlen : s.driver.nextAnswer.length = 3
      · obtain ⟨hi, lo, cfg, hans⟩ := List.length_eq_three.mp hlen
        obtain ⟨p1, p2, -, -, -, -, -⟩ := polled_fields s
        obtain ⟨p3, ev, p4⟩ := polled_rest s
        rw [pollLoop_three s n attemptCount devData hi lo cfg ha hans] at h
        by_cases hbit : cfg.val.testBit 7 = true
        · rw [if_pos hbit] at h
          obtain ⟨q1, q2, q3, ev', q4⟩ := ih _ _ _ _ h
          exact ⟨q1.trans p1, q2.trans p2, q3.trans p3, ev ++ ev',
            by rw [q4, p4, List.append_assoc]⟩
        · rw [if_neg hbit] at h
          have he := Option.some.inj h
          subst he
          exact ⟨p1, p2, p3, ev, p4⟩
      · by_cases hn : 0 < n
        · rw [pollLoop_short s (n + 1) attemptCount devData (by omega) ha hlen] at h
          have he := Option.some.inj h
          subst he
          simp only [LoopExit.state]
          rw [shortRead_eq]
          exact ⟨rfl, rfl, rfl, _, List.append_assoc _ _ _⟩
        · have hz : n = 0 := by omega
          subst hz
          have hav : ¬ (s.driver.requestFrom s._devAddr NUM_BYTES).2.available = NUM_BYTES := by
            simpa [TwoWire.requestFrom, TwoWire.available, NUM_BYTES] using hlen
          rw [pollLoop, if_pos ha] at h
          simp only [hav, if_false, pollLoop] at h
          exact absurd h (by simp)
    · rw [pollLoop_exit (n + 1) s attemptCount devData (by omega) ha] at h
      have he := Option.some.inj h
      subst he
      exact ⟨rfl, rfl, rfl, [], by simp [LoopExit.state]⟩

/-- The whole of `getData` changes neither the mirror, nor the address, nor the reference,
and only adds to the bus log after its trigger and liveness ping. -/
theorem getData_frame (s : ADS1110) (value : Int) (s' : ADS1110)
    (h : s.getData = some (value, s')) :
    s'._config = s._config ∧ s'._devAddr = s._devAddr ∧ s'._vref = s._vref ∧
      ∃ events, s'.driver.log = s.live.driver.log ++ events := by
  obtain ⟨b1, b2, -, -, -, -, -⟩ := live_fields s
  obtain ⟨b3, -, -⟩ := live_rest s
  rw [getData_eq] at h
  by_cases hping : s.livenessResult ≠ 0
  · rw [if_pos hping] at h
    have he := Option.some.inj h
    rw [Prod.mk.injEq] at he
    obtain ⟨-, rfl⟩ := he
    exact ⟨b1, b2, b3, [], by simp⟩
  · rw [if_neg hping] at h
    cases hl : s.live.pollLoop (MAX_NUM_ATTEMPTS + 1) 0 0 with
    | none =>
      rw [hl] at h
      simp at h
    | some exit =>
      rw [hl] at h
      obtain ⟨q1, q2, q3, ev, q4⟩ := pollLoop_frame _ _ _ _ _ hl
      cases exit with
      | returned v s2 =>
        simp only [Option.some.injEq, Prod.mk.injEq] at h
        obtain ⟨-, rfl⟩ := h
        exact ⟨q1.trans b1, q2.trans b2, q3.trans b3, ev, q4⟩
      | finished d s2 =>
        simp only [LoopExit.state] at q1 q2 q3 q4
        by_cases hm : bitRead s2._config 4 = 0
        · simp only [hm, if_true, Option.some.injEq, Prod.mk.injEq] at h
          obtain ⟨-, rfl⟩ := h
          refine ⟨q1.trans b1, q2.trans b2, q3.trans b3, ?_⟩
          rw [ping_log, q4]
          exact ⟨_, List.append_assoc _ _ _⟩
        · simp only [hm, if_false, Option.some.injEq, Prod.mk.injEq] at h
          obtain ⟨-, rfl⟩ := h
          exact ⟨q1.trans b1, q2.trans b2, q3.trans b3, ev, q4⟩

/-- The acquisition `getData` returns in every state. -/
theorem getData_total (s : ADS1110) : ∃ value s', s.getData = some (value, s') := by
  rw [getData_eq]
  by_cases hping : s.livenessResult ≠ 0
  · rw [if_pos hping]
    exact ⟨_, _, rfl⟩
  · rw [if_neg hping]
    obtain ⟨exit, he, -⟩ := pollLoop_total (MAX_NUM_ATTEMPTS + 1) s.live 0 0 (by omega)
    rw [he]
    cases exit with
    | returned v s2 => exact ⟨_, _, rfl⟩
    | finished d s2 =>
      by_cases hm : bitRead s2._config 4 = 0
      · simp only [hm, if_true]
        exact ⟨_, _, rfl⟩
      · simp only [hm, if_false]
        exact ⟨_, _, rfl⟩

end ADS1110

namespace ADS1110

theorem getConMode_ne_zero (s : ADS1110) (hm : s.getConMode = 1) : bitRead s._config 4 ≠ 0 := by
  unfold getConMode at hm
  omega

theorem readRequests_live (s : ADS1110) :
    readRequests s.live.driver.log = readRequests s.driver.log ∧
      byteReads s.live.driver.log = byteReads s.driver.log := by
  rw [live_log]
  by_cases h : bitRead s._config 4 ≠ 0
  · simp [if_pos h, readRequests, byteReads, BusEvent.isRequest, BusEvent.isRead]
  · simp [if_neg h, readRequests, byteReads, BusEvent.isRequest, BusEvent.isRead]

/-- C11: when the liveness ping of `getData` (made after the trigger of a single-shot
conversion, if any) returns a non-zero code, `getData` returns 0 at once: the ping is the
last event on the bus, no read request is made and no byte is read from the transport. -/
theorem getData_liveness_abort (s : ADS1110) (hping : s.livenessResult ≠ 0) :
    ∃ s', s.getData = some (0, s') ∧
      readRequests s'.driver.log = readRequests s.driver.log ∧
      byteReads s'.driver.log = byteReads s.driver.log ∧
      s'.driver.requests = s.driver.requests ∧
      s'.driver.rxBuffer = s.driver.rxBuffer ∧
      (s.getConMode = 0 →
        s'.driver.log =
          s.driver.log ++
            [BusEvent.transmission s._devAddr [s._config % 256] s.livenessResult]) ∧
      (s.getConMode = 1 →
        s'.driver.log =
          s.driver.log ++
            [BusEvent.transmission s._devAddr [(s._config ||| START_CONVERSION) % 256]
                s.driver.nextResult,
              BusEvent.transmission s._devAddr [s._config % 256] s.livenessResult]) := by
  obtain ⟨-, -, -, -, b5, -, -⟩ := live_fields s
  obtain ⟨-, b8, -⟩ := live_rest s
  obtain ⟨c1, c2⟩ := readRequests_live s
  refine ⟨s.live, ?_, c1, c2, b5, b8, ?_, ?_⟩
  · rw [getData_eq, if_pos hping]
  · intro hm
    have hb : ¬ bitRead s._config 4 ≠ 0 := by
      unfold getConMode at hm
      simp [hm]
    rw [live_log, if_neg hb]
    simp [livenessResult, triggerCount, hb, TwoWire.nextResult]
  · intro hm
    have hb := getConMode_ne_zero s hm
    rw [live_log, if_pos hb]
    simp [livenessResult, triggerCount, hb]

theorem getData_liveness_abort_witness :
    (scriptedDriver 0x1C [0, 2] [[0x12, 0x34, 0x1C]]).livenessResult ≠ 0 ∧
      ∃ s', (scriptedDriver 0x1C [0, 2] [[0x12, 0x34, 0x1C]]).getData = some (0, s') ∧
        readRequests s'.driver.log = 0 ∧ byteReads s'.driver.log = 0 := by
  refine ⟨by decide, ?_⟩
  obtain ⟨s', h1, h2, h3, -⟩ :=
    getData_liveness_abort (scriptedDriver 0x1C [0, 2] [[0x12, 0x34, 0x1C]]) (by decide)
  exact ⟨s', h1, h2, h3⟩

/-- C12 (the code at the failing inputs): in continuous mode with a communication result of
0, a liveness ping that ends with result code 2 makes `getData` return 0 and `getComResult`
still returns 0; in single-shot mode the same happens when the trigger is transmitted
(result 0) and the liveness ping fails with code 2. -/
theorem getData_failed_ping_not_reported :
    (scriptedDriver 0x0C [2] []).livenessResult = 2 ∧
      (scriptedDriver 0x0C [2] []).getComResult = 0 ∧
      (scriptedDriver 0x0C [2] []).getData.map (fun r => (r.1, r.2.getComResult)) =
        some (0, 0) ∧
      (scriptedDriver 0x1C [0, 2] []).livenessResult = 2 ∧
      (scriptedDriver 0x1C [0, 2] []).getData.map (fun r => (r.1, r.2.getComResult)) =
        some (0, 0) := by
  decide

/-- C17: `getData` returns in every state and never changes the mirrored configuration
register; in single-shot mode the first byte it writes to the bus is the mirror with the
start bit 7 set, and the byte written next, by the liveness ping, is the mirror itself. -/
theorem getData_keeps_mirror (s : ADS1110) :
    (∃ value s', s.getData = some (value, s')) ∧
    (∀ value s', s.getData = some (value, s') → s'._config = s._config) ∧
    (s.getConMode = 1 → s._config < 256 →
      ∀ value s', s.getData = some (value, s') →
        ∃ rest, s'.driver.log =
          s.driver.log ++
            BusEvent.transmission s._devAddr [s._config ||| START_CONVERSION]
                s.driver.nextResult ::
              BusEvent.transmission s._devAddr [s._config] s.livenessResult :: rest) := by
  refine ⟨getData_total s, fun value s' h => (getData_frame s value s' h).1, ?_⟩
  intro hm hc value s' h
  obtain ⟨-, -, -, ev, hlog⟩ := getData_frame s value s' h
  have hb := getConMode_ne_zero s hm
  have h1 : (s._config ||| START_CONVERSION) % 256 % 256 = s._config ||| START_CONVERSION := by
    have : s._config ||| START_CONVERSION < 2 ^ 8 :=
      Nat.or_lt_two_pow (by omega) (by decide)
    omega
  have h2 : s._config % 256 = s._config := by omega
  rw [live_log, if_pos hb, h1, h2] at hlog
  refine ⟨ev, ?_⟩
  rw [hlog]
  simp [livenessResult, triggerCount, hb]

theorem getData_keeps_mirror_witness :
    (scriptedDriver 0x1C [0, 0] [[0x12, 0x34, 0x1C]]).getConMode = 1 ∧
      (scriptedDriver 0x1C [0, 0] [[0x12, 0x34, 0x1C]])._config < 256 ∧
      ∃ value s' rest,
        (scriptedDriver 0x1C [0, 0] [[0x12, 0x34, 0x1C]]).getData = some (value, s') ∧
        s'._config = 0x1C ∧
        s'.driver.log =
          BusEvent.transmission 0x48 [0x9C] 0 :: BusEvent.transmission 0x48 [0x1C] 0 :: rest := by
  refine ⟨by decide, by decide, ?_⟩
  obtain ⟨value, s', h⟩ :=
    (getData_keeps_mirror (scriptedDriver 0x1C [0, 0] [[0x12, 0x34, 0x1C]])).1
  obtain ⟨rest, hr⟩ :=
    (getData_keeps_mirror (scriptedDriver 0x1C [0, 0] [[0x12, 0x34, 0x1C]])).2.2
      (by decide) (by decide) value s' h
  exact ⟨value, s', rest, h,
    (getData_keeps_mirror (scriptedDriver 0x1C [0, 0] [[0x12, 0x34, 0x1C]])).2.1 value s' h,
    hr⟩

end ADS1110

/-! ## Unit conversion -/

namespace ADS1110

/-- The minimum code of any register value, for a well-formed header. -/
theorem findMinCode_cases (h : Header) (hw : h.wellFormed) (s : ADS1110) :
    ∃ code, findMinCode h (s._config &&& SPS_MASK) = some code ∧
      (code = 16 ∨ code = 8 ∨ code = 4 ∨ code = 1) := by
  rcases table_row h hw s with ⟨-, -, -, c⟩ | ⟨-, -, -, c⟩ | ⟨-, -, -, c⟩ | ⟨-, -, -, c⟩
  · exact ⟨16, c, Or.inl rfl⟩
  · exact ⟨8, c, Or.inr (Or.inl rfl)⟩
  · exact ⟨4, c, Or.inr (Or.inr (Or.inl rfl))⟩
  · exact ⟨1, c, Or.inr (Or.inr (Or.inr rfl))⟩

theorem getGain_cases (s : ADS1110) :
    s.getGain = 1 ∨ s.getGain = 2 ∨ s.getGain = 4 ∨ s.getGain = 8 := by
  unfold getGain
  have hlt := and_gain_mask_lt s._config
  generalize s._config &&& GAIN_MASK = k at hlt
  interval_cases k <;> decide

theorem lowerLimit_eq (code : Nat) : lowerLimit code = -((code : Int) * 2048) := by
  unfold lowerLimit
  rw [Nat.shiftLeft_eq]
  push_cast
  ring

theorem upperLimit_eq (code : Nat) : upperLimit code = (code : Int) * 2048 - 1 := by
  unfold upperLimit
  rw [Nat.shiftLeft_eq]
  push_cast
  ring

theorem voltDivisor_eq (code gain : Nat) :
    voltDivisor code gain = (code : Int) * 2048 * (gain : Int) := by
  unfold voltDivisor
  rw [lowerLimit_eq]
  ring

/-- A ready answer to the first poll. -/
theorem getData_ready_first (s : ADS1110) (hi lo cfg : Fin 256)
    (hping : s.livenessResult = 0) (hans : s.pollAnswer 0 = [hi, lo, cfg])
    (hready : cfg.val.testBit 7 = false) :
    s.getData = some (rebase ((hi.val : Int) * 256 + (lo.val : Int)), s.live.polled) := by
  obtain ⟨-, -, c3, -, -, -, -⟩ := busy_state_fields s 0
  rw [getData_eq, if_neg (by simp [hping]),
    pollLoop_ready s.live _ 0 0 hi lo cfg (by omega) (by decide) (c3.trans hans) hready]

/-- C15: `mapf` is the linear map through its end points: for rationals `inMin ≠ inMax` it
sends `inMin` to `outMin` and `inMax` to `outMax`; from the 16-bit range to [0, 100] it sends
-32768 to 0, 32767 to 100 and 0 to 3276800/65535, which `round` takes to 50. -/
theorem mapf_endpoints (inMin inMax outMin outMax : ℚ) (hne : inMin ≠ inMax) :
    mapf inMin inMin inMax outMin outMax = outMin ∧
      mapf inMax inMin inMax outMin outMax = outMax ∧
      mapf (-32768) (-32768) 32767 0 100 = 0 ∧
      mapf 32767 (-32768) 32767 0 100 = 100 ∧
      mapf 0 (-32768) 32767 0 100 = 3276800 / 65535 ∧
      arduinoRound (mapf 0 (-32768) 32767 0 100) = 50 := by
  have hd : inMax - inMin ≠ 0 := sub_ne_zero.mpr (Ne.symm hne)
  have h0 : mapf 0 (-32768) 32767 0 100 = 3276800 / 65535 := by
    unfold mapf
    norm_num
  refine ⟨?_, ?_, ?_, ?_, h0, ?_⟩
  · unfold mapf
    simp
  · unfold mapf
    field_simp
  · unfold mapf
    norm_num
  · unfold mapf
    norm_num
  · rw [h0]
    unfold arduinoRound toLong
    rw [if_pos (by norm_num), if_pos (by norm_num), Int.floor_eq_iff]
    constructor <;> norm_num

theorem mapf_endpoints_witness :
    (-2048 : ℚ) ≠ 2047 ∧ mapf (-2048) (-2048) 2047 0 100 = 0 ∧
      mapf 2047 (-2048) 2047 0 100 = 100 :=
  ⟨by norm_num, (mapf_endpoints (-2048) 2047 0 100 (by norm_num)).1,
    (mapf_endpoints (-2048) 2047 0 100 (by norm_num)).2.1⟩

/-- C16: for every mirrored register value the divisor of `getPercent`,
`upperLimit - lowerLimit = minCode * 4096 - 1`, and the divisor of `getVolt`,
`minCode * 2048 * gain`, are strictly positive, so not zero as rationals either, and every
`int` computed on the way to them is within the range of a 32-bit `int`. -/
theorem divisors_positive (h : Header) (hw : h.wellFormed) (s : ADS1110) :
    ∃ code, findMinCode h (s._config &&& SPS_MASK) = some code ∧
      upperLimit code - lowerLimit code = (code : Int) * 4096 - 1 ∧
      0 < upperLimit code - lowerLimit code ∧
      ((upperLimit code : ℚ) - (lowerLimit code : ℚ) ≠ 0) ∧
      voltDivisor code s.getGain = (code : Int) * 2048 * (s.getGain : Int) ∧
      0 < voltDivisor code s.getGain ∧
      ((voltDivisor code s.getGain : Int) : ℚ) ≠ 0 ∧
      (code <<< 11 < 2 ^ 31 ∧ -(2 ^ 31) ≤ lowerLimit code ∧ lowerLimit code < 2 ^ 31 ∧
        -(2 ^ 31) ≤ upperLimit code ∧ upperLimit code < 2 ^ 31 ∧
        -(2 ^ 31) ≤ lowerLimit code * (s.getGain : Int) ∧
        lowerLimit code * (s.getGain : Int) < 2 ^ 31 ∧
        -(2 ^ 31) ≤ voltDivisor code s.getGain ∧ voltDivisor code s.getGain < 2 ^ 31) := by
  obtain ⟨code, hcode, hc⟩ := findMinCode_cases h hw s
  have hg := getGain_cases s
  have e1 := lowerLimit_eq code
  have e2 := upperLimit_eq code
  have e3 := voltDivisor_eq code s.getGain
  have hshift : code <<< 11 = code * 2048 := by
    rw [Nat.shiftLeft_eq]
  have hcode_le : (code : Int) ≤ 16 ∧ 1 ≤ (code : Int) := by
    rcases hc with e | e | e | e <;> subst e <;> norm_num
  have hgain_le : (s.getGain : Int) ≤ 8 ∧ 1 ≤ (s.getGain : Int) := by
    rcases hg with e | e | e | e <;> rw [e] <;> norm_num
  have hprod : (code : Int) * (s.getGain : Int) ≤ 128 ∧ 1 ≤ (code : Int) * (s.getGain : Int) := by
    constructor
    · calc (code : Int) * (s.getGain : Int) ≤ 16 * 8 :=
          mul_le_mul hcode_le.1 hgain_le.1 (by omega) (by omega)
        _ = 128 := by norm_num
    · nlinarith [hcode_le.2, hgain_le.2]
  have hdiv : voltDivisor code s.getGain = 2048 * ((code : Int) * (s.getGain : Int)) := by
    rw [e3]
    ring
  have hlg : lowerLimit code * (s.getGain : Int) = -(2048 * ((code : Int) * (s.getGain : Int))) := by
    rw [e1]
    ring
  refine ⟨code, hcode, by rw [e1, e2]; ring, by rw [e1, e2]; omega, ?_, e3, by rw [hdiv]; omega,
    ?_, ?_⟩
  · have : (0 : Int) < upperLimit code - lowerLimit code := by rw [e1, e2]; omega
    have hq : (0 : ℚ) < ((upperLimit code - lowerLimit code : Int) : ℚ) := by exact_mod_cast this
    push_cast at hq
    exact hq.ne'
  · have : (0 : Int) < voltDivisor code s.getGain := by rw [hdiv]; omega
    have hq : (0 : ℚ) < ((voltDivisor code s.getGain : Int) : ℚ) := by exact_mod_cast this
    exact hq.ne'
  · refine ⟨?_, ?_, ?_, ?_, ?_, ?_, ?_, ?_, ?_⟩
    · rw [hshift]
      have : code ≤ 16 := by exact_mod_cast hcode_le.1
      omega
    all_goals first
      | (rw [hlg]; omega)
      | (rw [hdiv]; omega)
      | (rw [e1]; omega)
      | (rw [e2]; omega)

theorem divisors_positive_witness :
    datasheetHeader.wellFormed ∧
      ∃ code, findMinCode datasheetHeader ((scriptedDriver 0x0F [] [])._config &&& SPS_MASK) =
          some code ∧
        0 < upperLimit code - lowerLimit code ∧
        0 < voltDivisor code (scriptedDriver 0x0F [] []).getGain := by
  refine ⟨by decide, ?_⟩
  obtain ⟨code, h1, -, h2, -, -, h3, -⟩ :=
    divisors_positive datasheetHeader (by decide) (scriptedDriver 0x0F [] [])
  exact ⟨code, h1, h2, h3⟩

end ADS1110

namespace ADS1110

/-- The two acquisitions of `getPercent`: the first reading selects the branch of `round`,
the second is the one scaled, and the final state is the one after the second. -/
theorem getPercent_eq (h : Header) (s : ADS1110) (code : Nat) (d₁ : Int) (s₁ : ADS1110)
    (d₂ : Int) (s₂ : ADS1110)
    (hcode : findMinCode h (s._config &&& SPS_MASK) = some code)
    (h1 : s.getData = some (d₁, s₁)) (h2 : s₁.getData = some (d₂, s₂)) :
    s.getPercent h =
      some (((if mapf (d₁ : ℚ) (lowerLimit code : ℚ) (upperLimit code : ℚ) 0 100 ≥ 0 then
            toLong (mapf (d₂ : ℚ) (lowerLimit code : ℚ) (upperLimit code : ℚ) 0 100 + 1 / 2)
          else
            toLong (mapf (d₂ : ℚ) (lowerLimit code : ℚ) (upperLimit code : ℚ) 0 100 - 1 / 2))
          % 256).toNat, s₂) := by
  simp only [getPercent, hcode, h1, h2]

/-- The argument of `round` in `getPercent`. -/
theorem mapf_limits (code : Nat) (d : Int) :
    mapf (d : ℚ) (lowerLimit code : ℚ) (upperLimit code : ℚ) 0 100 =
      ((d : ℚ) + (code : ℚ) * 2048) * 100 / ((code : ℚ) * 4096 - 1) := by
  unfold mapf
  rw [lowerLimit_eq, upperLimit_eq]
  push_cast
  ring

/-- On non-negative values the macro `round` rounds to the nearest integer. -/
theorem arduinoRound_of_nonneg (x : ℚ) (hx : 0 ≤ x) : arduinoRound x = round x := by
  unfold arduinoRound toLong
  rw [if_pos hx, if_pos (by linarith), round_eq]

/-- The scaled value lies in [0, 100] on the full-scale range and grows with the code. -/
theorem scaled_bounds (code : Nat) (hc : 1 ≤ code) (d : Int)
    (hlo : -((code : Int) * 2048) ≤ d) (hhi : d ≤ (code : Int) * 2048 - 1) :
    (0 : ℚ) ≤ ((d : ℚ) + (code : ℚ) * 2048) * 100 / ((code : ℚ) * 4096 - 1) ∧
      ((d : ℚ) + (code : ℚ) * 2048) * 100 / ((code : ℚ) * 4096 - 1) ≤ 100 := by
  have hc' : (1 : ℚ) ≤ (code : ℚ) := by exact_mod_cast hc
  have hD : (0 : ℚ) < (code : ℚ) * 4096 - 1 := by linarith
  have h1 : (0 : ℚ) ≤ (d : ℚ) + (code : ℚ) * 2048 := by
    have : (0 : Int) ≤ d + (code : Int) * 2048 := by omega
    exact_mod_cast this
  have h2 : (d : ℚ) + (code : ℚ) * 2048 ≤ (code : ℚ) * 4096 - 1 := by
    have : d + (code : Int) * 2048 ≤ (code : Int) * 4096 - 1 := by omega
    exact_mod_cast this
  constructor
  · positivity
  · rw [div_le_iff₀ hD]
    nlinarith

theorem scaled_mono (code : Nat) (hc : 1 ≤ code) (d₁ d₂ : Int) (hle : d₁ ≤ d₂) :
    ((d₁ : ℚ) + (code : ℚ) * 2048) * 100 / ((code : ℚ) * 4096 - 1) ≤
      ((d₂ : ℚ) + (code : ℚ) * 2048) * 100 / ((code : ℚ) * 4096 - 1) := by
  have hc' : (1 : ℚ) ≤ (code : ℚ) := by exact_mod_cast hc
  have hD : (0 : ℚ) < (code : ℚ) * 4096 - 1 := by linarith
  have h : (d₁ : ℚ) ≤ (d₂ : ℚ) := by exact_mod_cast hle
  apply div_le_div_of_nonneg_right _ hD.le
  linarith

/-- What `getPercent` computes from a code in the full-scale range. -/
theorem percent_value (code : Nat) (hc : 1 ≤ code) (d : Int)
    (hlo : -((code : Int) * 2048) ≤ d) (hhi : d ≤ (code : Int) * 2048 - 1) :
    (((arduinoRound (mapf (d : ℚ) (lowerLimit code : ℚ) (upperLimit code : ℚ) 0 100) % 256).toNat
        : Nat) : Int) =
      round (((d : ℚ) + (code : ℚ) * 2048) * 100 / ((code : ℚ) * 4096 - 1)) ∧
    0 ≤ round (((d : ℚ) + (code : ℚ) * 2048) * 100 / ((code : ℚ) * 4096 - 1)) ∧
    round (((d : ℚ) + (code : ℚ) * 2048) * 100 / ((code : ℚ) * 4096 - 1)) ≤ 100 := by
  obtain ⟨h0, h100⟩ := scaled_bounds code hc d hlo hhi
  have hr0 : 0 ≤ round (((d : ℚ) + (code : ℚ) * 2048) * 100 / ((code : ℚ) * 4096 - 1)) := by
    rw [round_eq, Int.le_floor]
    push_cast
    linarith
  have hr100 : round (((d : ℚ) + (code : ℚ) * 2048) * 100 / ((code : ℚ) * 4096 - 1)) ≤ 100 := by
    rw [round_eq]
    have : ⌊((d : ℚ) + (code : ℚ) * 2048) * 100 / ((code : ℚ) * 4096 - 1) + 1 / 2⌋ < 101 := by
      rw [Int.floor_lt]
      push_cast
      linarith
    omega
  refine ⟨?_, hr0, hr100⟩
  rw [mapf_limits, arduinoRound_of_nonneg _ h0]
  omega

/-- The quotient that `getPercent` rounds is `n * 100 / D` with `n = d + minCode * 2048` and
`D = minCode * 4096 - 1`; it differs from every half-integer `k + 1/2` by
`(200 * n - (2 * k + 1) * D) / (2 * D)`, whose numerator is odd, so the distance is at least
`1 / (2 * D)`: an error of the `double` arithmetic below that cannot change the rounded
value. -/
theorem scaled_off_half (code : Nat) (hc : code = 16 ∨ code = 8 ∨ code = 4 ∨ code = 1)
    (d k : Int) :
    200 * (d + (code : Int) * 2048) - (2 * k + 1) * ((code : Int) * 4096 - 1) ≠ 0 := by
  rcases hc with e | e | e | e <;> subst e <;> push_cast <;> omega

/-- The code 0 is scaled to 50 at each of the four sample rates. -/
theorem percent_of_zero (code : Nat) (hc : code = 16 ∨ code = 8 ∨ code = 4 ∨ code = 1) :
    (arduinoRound (mapf ((0 : Int) : ℚ) (lowerLimit code : ℚ) (upperLimit code : ℚ) 0 100)
      % 256).toNat = 50 := by
  have hc1 : 1 ≤ code := by
    rcases hc with e | e | e | e <;> omega
  obtain ⟨v1, -, -⟩ := percent_value code hc1 0 (by omega) (by omega)
  have hr : round ((((0 : Int) : ℚ) + (code : ℚ) * 2048) * 100 / ((code : ℚ) * 4096 - 1)) = 50 := by
    rw [round_eq, Int.floor_eq_iff]
    rcases hc with e | e | e | e <;> subst e <;> constructor <;> norm_num
  rw [hr] at v1
  omega

/-- The upper limit of the range is scaled to 100. -/
theorem percent_of_upper (code : Nat) (hc : code = 16 ∨ code = 8 ∨ code = 4 ∨ code = 1)
    (d : Int) (hd : d = (code : Int) * 2048 - 1) :
    (arduinoRound (mapf (d : ℚ) (lowerLimit code : ℚ) (upperLimit code : ℚ) 0 100)
      % 256).toNat = 100 := by
  have hc1 : 1 ≤ code := by
    rcases hc with e | e | e | e <;> omega
  have hc' : (1 : ℚ) ≤ (code : ℚ) := by exact_mod_cast hc1
  have hD : (code : ℚ) * 4096 - 1 ≠ 0 := by
    have : (0 : ℚ) < (code : ℚ) * 4096 - 1 := by linarith
    exact this.ne'
  obtain ⟨v1, -, -⟩ := percent_value code hc1 d (by omega) (by omega)
  have hx : ((d : ℚ) + (code : ℚ) * 2048) * 100 / ((code : ℚ) * 4096 - 1) = ((100 : Int) : ℚ) := by
    rw [hd]
    push_cast
    field_simp
    ring
  rw [hx, round_intCast] at v1
  omega

/-- When the first reading is not below the lower limit the non-negative branch of `round`
is taken, and a second reading in the full-scale range is rounded to the nearest integer. -/
theorem getPercent_in_range (h : Header) (s : ADS1110) (code : Nat) (d₁ : Int) (s₁ : ADS1110)
    (d₂ : Int) (s₂ : ADS1110) (hc : code = 16 ∨ code = 8 ∨ code = 4 ∨ code = 1)
    (hcode : findMinCode h (s._config &&& SPS_MASK) = some code)
    (h1 : s.getData = some (d₁, s₁)) (h2 : s₁.getData = some (d₂, s₂))
    (hlo₁ : -((code : Int) * 2048) ≤ d₁)
    (hlo₂ : -((code : Int) * 2048) ≤ d₂) (hhi₂ : d₂ ≤ (code : Int) * 2048 - 1) :
    s.getPercent h =
      some ((arduinoRound (mapf (d₂ : ℚ) (lowerLimit code : ℚ) (upperLimit code : ℚ) 0 100)
        % 256).toNat, s₂) := by
  have hc1 : 1 ≤ code := by
    rcases hc with e | e | e | e <;> omega
  have hc' : (1 : ℚ) ≤ (code : ℚ) := by exact_mod_cast hc1
  have hD : (0 : ℚ) < (code : ℚ) * 4096 - 1 := by linarith
  have hx₁ : mapf (d₁ : ℚ) (lowerLimit code : ℚ) (upperLimit code : ℚ) 0 100 ≥ 0 := by
    rw [mapf_limits]
    have : (0 : Int) ≤ d₁ + (code : Int) * 2048 := by omega
    have hq : (0 : ℚ) ≤ (d₁ : ℚ) + (code : ℚ) * 2048 := by exact_mod_cast this
    positivity
  have hx₂ : mapf (d₂ : ℚ) (lowerLimit code : ℚ) (upperLimit code : ℚ) 0 100 ≥ 0 := by
    rw [mapf_limits]
    exact (scaled_bounds code hc1 d₂ hlo₂ hhi₂).1
  rw [getPercent_eq h s code d₁ s₁ d₂ s₂ hcode h1 h2, if_pos hx₁]
  unfold arduinoRound
  rw [if_pos hx₂]

end ADS1110

namespace ADS1110

/-- C14 (the code at the failing inputs): `getPercent` makes two acquisitions, because the
macro `round` evaluates `mapf(getData(), ...)` twice.  At 15 SPS, when the acquisition made
from the call state returns the lower limit -32768 and the next one returns 32767,
`getPercent` returns 100, not 0, after 2 read requests; at 240 SPS, when the first reading is
-32768 and the second is the code 0, it returns 49, not `round (204800 / 4095) = 50`. -/
theorem getPercent_acquires_twice :
    (scriptedDriver 0x0C [0, 0] [[0x80, 0x00, 0x0C], [0x7F, 0xFF, 0x0C]]).getData.map Prod.fst =
        some (-32768) ∧
      ((scriptedDriver 0x0C [0, 0] [[0x80, 0x00, 0x0C], [0x7F, 0xFF, 0x0C]]).getPercent
          datasheetHeader).map (fun r => (r.1, readRequests r.2.driver.log)) = some (100, 2) ∧
      ((scriptedDriver 0x00 [0, 0] [[0x80, 0x00, 0x00], [0x00, 0x00, 0x00]]).getPercent
          datasheetHeader).map (fun r => (r.1, readRequests r.2.driver.log)) = some (49, 2) ∧
      round ((204800 : ℚ) / 4095) = 50 := by
  have a1 := getData_ready_first
    (scriptedDriver 0x0C [0, 0] [[0x80, 0x00, 0x0C], [0x7F, 0xFF, 0x0C]]) 0x80 0x00 0x0C
    (by decide) rfl (by decide)
  have a2 := getData_ready_first
    (scriptedDriver 0x0C [0, 0] [[0x80, 0x00, 0x0C], [0x7F, 0xFF, 0x0C]]).live.polled
    0x7F 0xFF 0x0C (by decide) (by decide) (by decide)
  have c1 := getData_ready_first
    (scriptedDriver 0x00 [0, 0] [[0x80, 0x00, 0x00], [0x00, 0x00, 0x00]]) 0x80 0x00 0x00
    (by decide) rfl (by decide)
  have c2 := getData_ready_first
    (scriptedDriver 0x00 [0, 0] [[0x80, 0x00, 0x00], [0x00, 0x00, 0x00]]).live.polled
    0x00 0x00 0x00 (by decide) (by decide) (by decide)
  have z1 : rebase ((((0x80 : Fin 256).val : Nat) : Int) * 256 +
      (((0x00 : Fin 256).val : Nat) : Int)) = -32768 := by decide
  have z2 : rebase ((((0x7F : Fin 256).val : Nat) : Int) * 256 +
      (((0xFF : Fin 256).val : Nat) : Int)) = 32767 := by decide
  have z3 : rebase ((((0x00 : Fin 256).val : Nat) : Int) * 256 +
      (((0x00 : Fin 256).val : Nat) : Int)) = 0 := by decide
  rw [z1] at a1 c1
  rw [z2] at a2
  rw [z3] at c2
  refine ⟨by rw [a1]; rfl, ?_, ?_, ?_⟩
  · rw [getPercent_in_range datasheetHeader _ 16 (-32768) _ 32767 _ (Or.inl rfl) (by decide)
      a1 a2 (by norm_num) (by norm_num) (by norm_num),
      percent_of_upper 16 (Or.inl rfl) 32767 (by norm_num)]
    simp only [Option.map_some', Option.some.injEq, Prod.mk.injEq, true_and]
    decide
  · rw [getPercent_eq datasheetHeader _ 1 (-32768) _ 0 _ (by decide) c1 c2, mapf_limits,
      mapf_limits, if_neg (by norm_num)]
    have hv : toLong ((((0 : Int) : ℚ) + ((1 : Nat) : ℚ) * 2048) * 100 /
        (((1 : Nat) : ℚ) * 4096 - 1) - 1 / 2) = 49 := by
      unfold toLong
      rw [if_pos (by norm_num), Int.floor_eq_iff]
      constructor <;> norm_num
    rw [hv]
    simp only [Option.map_some', Option.some.injEq, Prod.mk.injEq]
    exact ⟨by decide, by decide⟩
  · rw [round_eq, Int.floor_eq_iff]
    constructor <;> norm_num

/-- C19 (the code at the failing input): at 15 SPS, when the liveness ping of the first
acquisition fails with code 2, so that `getData` returns its sentinel 0, and the second
acquisition of `getPercent` reads 32767, `getPercent` returns 100, not 50; for two genuine
readings of the code 0 it returns 50. -/
theorem getPercent_sentinel_not_midscale :
    (scriptedDriver 0x0C [2, 0] [[0x7F, 0xFF, 0x0C]]).livenessResult = 2 ∧
      (scriptedDriver 0x0C [2, 0] [[0x7F, 0xFF, 0x0C]]).getData.map Prod.fst = some 0 ∧
      ((scriptedDriver 0x0C [2, 0] [[0x7F, 0xFF, 0x0C]]).getPercent datasheetHeader).map
          Prod.fst = some 100 ∧
      ((scriptedDriver 0x0C [0, 0] [[0x00, 0x00, 0x0C], [0x00, 0x00, 0x0C]]).getPercent
          datasheetHeader).map Prod.fst = some 50 := by
  have a1 : (scriptedDriver 0x0C [2, 0] [[0x7F, 0xFF, 0x0C]]).getData =
      some (0, (scriptedDriver 0x0C [2, 0] [[0x7F, 0xFF, 0x0C]]).live) := by
    rw [getData_eq, if_pos (by decide)]
  have a2 := getData_ready_first (scriptedDriver 0x0C [2, 0] [[0x7F, 0xFF, 0x0C]]).live
    0x7F 0xFF 0x0C (by decide) (by decide) (by decide)
  have b1 := getData_ready_first
    (scriptedDriver 0x0C [0, 0] [[0x00, 0x00, 0x0C], [0x00, 0x00, 0x0C]]) 0x00 0x00 0x0C
    (by decide) rfl (by decide)
  have b2 := getData_ready_first
    (scriptedDriver 0x0C [0, 0] [[0x00, 0x00, 0x0C], [0x00, 0x00, 0x0C]]).live.polled
    0x00 0x00 0x0C (by decide) (by decide) (by decide)
  have z2 : rebase ((((0x7F : Fin 256).val : Nat) : Int) * 256 +
      (((0xFF : Fin 256).val : Nat) : Int)) = 32767 := by decide
  have z3 : rebase ((((0x00 : Fin 256).val : Nat) : Int) * 256 +
      (((0x00 : Fin 256).val : Nat) : Int)) = 0 := by decide
  rw [z2] at a2
  rw [z3] at b1 b2
  refine ⟨by decide, by rw [a1]; rfl, ?_, ?_⟩
  · rw [getPercent_in_range datasheetHeader _ 16 0 _ 32767 _ (Or.inl rfl) (by decide)
      a1 a2 (by norm_num) (by norm_num) (by norm_num),
      percent_of_upper 16 (Or.inl rfl) 32767 (by norm_num)]
    rfl
  · rw [getPercent_in_range datasheetHeader _ 16 0 _ 0 _ (Or.inl rfl) (by decide)
      b1 b2 (by norm_num) (by norm_num) (by norm_num),
      percent_of_zero 16 (Or.inl rfl)]
    rfl

end ADS1110

/-! ## Reachable states -/

namespace ADS1110

end ADS1110
